import Mathlib

/-!
Verification of the egress-proxy mitmproxy addon
(`apps/os/sandbox/s6-daemons/egress-proxy/addon.py`).

The Python module is shallowly embedded: Python strings are lists of
characters, the header mapping is an ordered case-insensitive
string-to-string mapping (spec section 3), and each mitmproxy lifecycle
hook of `EgressProxyAddon` becomes a total Lean function returning
`Except` (errors model Python exceptions) together with the list of log
lines it emits.  The parts of `urllib.parse` the addon calls
(`urlparse`, and the `hostname` / `port` accessors used on its result)
are embedded from CPython's `urllib/parse.py`.
-/

deriving instance DecidableEq for Except

namespace EgressProxy

/-- Python strings are modelled as lists of characters. -/
abbrev Str := List Char

/-- Embed a Lean string literal as a modelled Python string. -/
def str (s : String) : Str := s.data

/-- Model of Python `str.lower()` (ASCII case folding). -/
def pyLower (s : Str) : Str := s.map Char.toLower

/-- Model of Python `str.rstrip('/')`: drop trailing `'/'` characters. -/
def rstripSlashes (s : Str) : Str := (s.reverse.dropWhile (fun c => c == '/')).reverse

/-- Header mapping: ordered, keys compared case-insensitively, one value
per key (spec section 3: "header mapping (string→string, keys
case-insensitive, last-write-wins)"). -/
abbrev Headers := List (Str × Str)

/-- Case-insensitive header-key comparison. -/
def keyMatches (a b : Str) : Bool := pyLower a == pyLower b

/-- Model of `headers.get(k)`: first entry whose key matches case-insensitively. -/
def hGet (hs : Headers) (k : Str) : Option Str :=
  (hs.find? (fun p => keyMatches p.1 k)).map Prod.snd

/-- Model of `headers.get(k, d)`. -/
def hGetD (hs : Headers) (k d : Str) : Str := (hGet hs k).getD d

/-- Model of `headers[k] = v`: overwrite the entry with a matching key
(keeping its position), or append a new entry. -/
def hSet : Headers → Str → Str → Headers
  | [], k, v => [(k, v)]
  | p :: rest, k, v =>
    if keyMatches p.1 k then (k, v) :: rest else p :: hSet rest k v

/-- Numeric value of an ASCII digit character. -/
def digitVal (c : Char) : Nat := c.toNat - 48

/-- Left fold reading a run of decimal digits (model of `int(s, 10)` on
an all-digit string). -/
def parseNatAux : Nat → Str → Nat
  | acc, [] => acc
  | acc, c :: cs => parseNatAux (10 * acc + digitVal c) cs

/-- Model of Python `int(s, 10)` on an all-digit string. -/
def parseNat (s : Str) : Nat := parseNatAux 0 s

/-- Model of Python `str.isdigit` on ASCII: the character is `0`-`9`. -/
def pyIsDigit (c : Char) : Bool := 48 ≤ c.toNat && c.toNat ≤ 57

/-- Accumulator loop producing the decimal digits of `n` (most
significant first) in front of `acc`.  The first argument is fuel (any
amount `≥ n` yields the same result, see `natDigitsGo_irrel`); it makes
the recursion structural so that evaluation works by kernel reduction. -/
def natDigitsGo : Nat → Nat → Str → Str
  | 0, _, acc => acc
  | fuel + 1, n, acc =>
    if n = 0 then acc
    else natDigitsGo fuel (n / 10) (Nat.digitChar (n % 10) :: acc)

/-- Decimal rendering of a natural number; model of Python's f-string
interpolation of an `int` (e.g. the port in `f"...:{original_port}..."`). -/
def natDigits (n : Nat) : Str := if n = 0 then ['0'] else natDigitsGo n n []

/-- Split a list at the first character satisfying `p`: the pair of the
part strictly before the first hit and the part from the first hit on
(empty when there is none).  Used to model `str.find` / `str.partition`
/ `str.split(sep, 1)` combinations. -/
def splitAtFirst (s : Str) (p : Char → Bool) : Str × Str :=
  (s.takeWhile (fun c => !p c), s.dropWhile (fun c => !p c))

/-- `urllib.parse.scheme_chars`: ASCII letters, digits, `+`, `-`, `.`. -/
def schemeChar (c : Char) : Bool :=
  c.isAlpha || c.isDigit || c == '+' || c == '-' || c == '.'

/-- The WHATWG "C0 control or space" class stripped from the front of a
URL by `urlsplit`. -/
def isC0OrSpace (c : Char) : Bool := decide (c.toNat ≤ 32)

/-- Tab, CR and LF are removed from anywhere in a URL by `urlsplit`. -/
def isUnsafeUrlByte (c : Char) : Bool := c == '\t' || c == '\r' || c == '\n'

/-- The input normalisation `urlsplit` performs before splitting:
left-strip C0 controls and space, then delete tab/CR/LF everywhere. -/
def pyUrlNormalize (u : Str) : Str :=
  (u.dropWhile isC0OrSpace).filter (fun c => !isUnsafeUrlByte c)

/-- Result of `urlsplit`: scheme, netloc, path, query, fragment. -/
structure SplitResult where
  scheme : Str
  netloc : Str
  path : Str
  query : Str
  fragment : Str
deriving DecidableEq

/-- Scheme-split stage of `urlsplit`: when the part before the first `:`
is a valid scheme (non-empty, leading ASCII letter, scheme characters
only), return it lowercased together with the rest after the `:`;
otherwise no scheme. -/
def schemeSplit (url : Str) : Str × Str :=
  let pre := (splitAtFirst url (fun c => c == ':')).1
  let restc := (splitAtFirst url (fun c => c == ':')).2
  let hasScheme := !restc.isEmpty && !pre.isEmpty &&
    (match pre with | c :: _ => c.isAlpha | [] => false) && pre.all schemeChar
  if hasScheme then (pyLower pre, restc.tail) else ([], url)

/-- Netloc stage of `urlsplit` (`_splitnetloc`): when the remainder
starts with `//`, the netloc runs from there to the first `/`, `?` or
`#`. -/
def netlocSplit (url : Str) : Str × Str :=
  match url with
  | '/' :: '/' :: rest =>
    ((splitAtFirst rest (fun c => c == '/' || c == '?' || c == '#')).1,
     (splitAtFirst rest (fun c => c == '/' || c == '?' || c == '#')).2)
  | _ => ([], url)

/-- Fragment stage of `urlsplit`: `url.split('#', 1)` when a `#` is
present. -/
def fragmentSplit (url : Str) : Str × Str :=
  if url.contains '#' then
    ((splitAtFirst url (fun c => c == '#')).1,
     (splitAtFirst url (fun c => c == '#')).2.tail)
  else (url, [])

/-- Query stage of `urlsplit`: `url.split('?', 1)` when a `?` is
present. -/
def querySplit (url : Str) : Str × Str :=
  if url.contains '?' then
    ((splitAtFirst url (fun c => c == '?')).1,
     (splitAtFirst url (fun c => c == '?')).2.tail)
  else (url, [])

/-- Model of CPython `urllib.parse.urlsplit` (urllib/parse.py): input
normalisation, scheme split at the first `:` when the prefix is a valid
scheme, netloc after `//` up to the first `/?#`, check that square
brackets in the netloc are balanced (`ValueError` otherwise), then split
off fragment at the first `#` and query at the first `?`. -/
def urlsplitModel (url0 : Str) : Except String SplitResult :=
  let sp := schemeSplit (pyUrlNormalize url0)
  let np := netlocSplit sp.2
  if (np.1.contains '[' && !np.1.contains ']') ||
     (np.1.contains ']' && !np.1.contains '[') then
    .error "Invalid IPv6 URL"
  else
    let fp := fragmentSplit np.2
    let qp := querySplit fp.1
    .ok ⟨sp.1, np.1, qp.1, qp.2, fp.2⟩

/-- Result of `urlparse`: `urlsplit`'s fields plus path parameters. -/
structure ParseResult where
  scheme : Str
  netloc : Str
  path : Str
  params : Str
  query : Str
  fragment : Str
deriving DecidableEq

/-- Model of `urllib.parse._splitparams`: split the path at the first
`;` occurring in its last `/`-separated segment. -/
def splitparams (u : Str) : Str × Str :=
  if u.contains '/' then
    let lastSeg := (u.reverse.takeWhile (fun c => !(c == '/'))).reverse
    let pre := (u.reverse.dropWhile (fun c => !(c == '/'))).reverse
    if lastSeg.contains ';' then
      (pre ++ (splitAtFirst lastSeg (fun c => c == ';')).1,
       (splitAtFirst lastSeg (fun c => c == ';')).2.tail)
    else (u, [])
  else if u.contains ';' then
    ((splitAtFirst u (fun c => c == ';')).1, (splitAtFirst u (fun c => c == ';')).2.tail)
  else (u, [])

/-- Model of `urllib.parse.urlparse`: `urlsplit`, then `_splitparams`
on the path when it contains a `;`. -/
def urlparseModel (url : Str) : Except String ParseResult :=
  match urlsplitModel url with
  | .error e => .error e
  | .ok sp =>
    let pp := if sp.path.contains ';' then splitparams sp.path else (sp.path, [])
    .ok ⟨sp.scheme, sp.netloc, pp.1, pp.2, sp.query, sp.fragment⟩

/-- Model of `SplitResult._hostinfo`: the part of the netloc after the
last `@`, split into host part and port string (after `:`, or after the
closing `]` and `:` for a bracketed host). -/
def hostinfo (netloc : Str) : Str × Str :=
  let hi := (netloc.reverse.takeWhile (fun c => !(c == '@'))).reverse
  if hi.contains '[' then
    let bracketed := (splitAtFirst hi (fun c => c == '[')).2.tail
    let afterBr := (splitAtFirst bracketed (fun c => c == ']')).2.tail
    ((splitAtFirst bracketed (fun c => c == ']')).1,
     (splitAtFirst afterBr (fun c => c == ':')).2.tail)
  else
    ((splitAtFirst hi (fun c => c == ':')).1,
     (splitAtFirst hi (fun c => c == ':')).2.tail)

/-- Model of the `hostname` property: host part of the netloc,
lowercased; `None` when empty. -/
def hostnameProp (netloc : Str) : Option Str :=
  let h := (hostinfo netloc).1
  if h.isEmpty then none else some (pyLower h)

/-- Model of the `port` property: `None` when no port string, the
integer value when it is all digits and in range, a `ValueError`
otherwise. -/
def portProp (netloc : Str) : Except String (Option Nat) :=
  let p := (hostinfo netloc).2
  if p.isEmpty then .ok none
  else if p.all pyIsDigit then
    if parseNat p ≤ 65535 then .ok (some (parseNat p))
    else .error "Port out of range 0-65535"
  else .error "Port could not be cast to integer value"

/-- The process configuration read from the environment at startup:
`ITERATE_OS_BASE_URL` and `ITERATE_OS_API_KEY` (empty when unset). -/
structure Config where
  baseUrl : Str
  apiKey : Str

/-- addon.py line 25:
`WORKER_ENDPOINT = f"{BASE_URL.rstrip('/')}/api/egress-proxy" if BASE_URL else ""`. -/
def workerEndpoint (c : Config) : Str :=
  if c.baseUrl.isEmpty then [] else rstripSlashes c.baseUrl ++ str "/api/egress-proxy"

/-- The mutable request object handed to the `request` hook:
method, scheme, host, port, path (includes the query), header mapping. -/
structure Request where
  method : Str
  scheme : Str
  host : Str
  port : Nat
  path : Str
  headers : Headers
deriving DecidableEq

/-- addon.py lines 63-68: the canonical original URL, omitting the port
when it is the scheme's default (443 for https, 80 for http). -/
def buildOriginalUrl (scheme host : Str) (port : Nat) (path : Str) : Str :=
  if (scheme == str "https" && port == 443) || (scheme == str "http" && port == 80) then
    scheme ++ str "://" ++ host ++ path
  else
    scheme ++ str "://" ++ host ++ [':'] ++ natDigits port ++ path

/-- Model of mitmproxy's `request.url` property (used only inside log
lines): scheme://host[:port]path, port omitted when default. -/
def requestUrl (r : Request) : Str := buildOriginalUrl r.scheme r.host r.port r.path

/-- addon.py line 90: `parsed.port or (443 if parsed.scheme == "https" else 80)`
(Python truthiness: an explicit port 0 also falls back to the default). -/
def relayPortOf (scheme : Str) (po : Option Nat) : Nat :=
  match po with
  | some k => if k == 0 then (if scheme == str "https" then 443 else 80) else k
  | none => if scheme == str "https" then 443 else 80

/-- addon.py lines 95-98: the recomputed `Host` header value —
`hostname:port` when the relay URL carries an explicit truthy port not in
`(80, 443)`, the hostname alone otherwise. -/
def hostHeaderOf (hn : Str) (po : Option Nat) : Str :=
  match po with
  | some k => if !(k == 0) && !(k == 80) && !(k == 443)
              then hn ++ [':'] ++ natDigits k else hn
  | none => hn

/-- addon.py lines 51-98, `EgressProxyAddon.request`.  Returns the
request as it stands when the hook returns, together with the log lines
emitted; `.error` models an uncaught Python exception. -/
def requestHandler (cfg : Config) (req : Request) : Except String (Request × List Str) :=
  -- line 54: if flow.request.headers.get("Upgrade", "").lower() == "websocket"
  if pyLower (hGetD req.headers (str "Upgrade") []) == str "websocket" then
    .ok (req, [str "[egress] WebSocket passthrough: " ++ req.host])
  else
    -- lines 58-68: snapshot original host/port/scheme/path, build original URL
    let originalUrl := buildOriginalUrl req.scheme req.host req.port req.path
    -- line 70: ctx.log.info(f"[egress] {flow.request.method} {original_url}")
    let seenLog := str "[egress] " ++ req.method ++ str " " ++ originalUrl
    -- lines 73-74: if not WORKER_ENDPOINT: return
    if (workerEndpoint cfg).isEmpty then
      .ok (req, [seenLog])
    else
      -- line 77: parsed = urlparse(WORKER_ENDPOINT)
      match urlparseModel (workerEndpoint cfg) with
      | .error e => .error e
      | .ok parsed =>
        -- lines 80-82: stamp the original-request metadata headers
        let hs1 := hSet req.headers (str "X-Iterate-Original-URL") originalUrl
        let hs2 := hSet hs1 (str "X-Iterate-Original-Host") req.host
        let hs3 := hSet hs2 (str "X-Iterate-Original-Method") req.method
        -- lines 85-86: if API_KEY: set the auth header
        let hs4 := if cfg.apiKey.isEmpty then hs3
                   else hSet hs3 (str "X-Iterate-API-Key") cfg.apiKey
        -- line 89: flow.request.host = parsed.hostname (TypeError when None)
        match hostnameProp parsed.netloc with
        | none => .error "TypeError: hostname is None"
        | some hn =>
          -- lines 90, 95: parsed.port (ValueError propagates)
          match portProp parsed.netloc with
          | .error e => .error e
          | .ok po =>
            -- line 90: parsed.port or (443 if parsed.scheme == "https" else 80)
            let newPort := relayPortOf parsed.scheme po
            -- line 92: parsed.path or "/api/egress-proxy"
            let newPath := if parsed.path.isEmpty then str "/api/egress-proxy" else parsed.path
            -- lines 95-98: Host header
            let hs5 := hSet hs4 (str "Host") (hostHeaderOf hn po)
            .ok ({ method := req.method, scheme := parsed.scheme, host := hn,
                   port := newPort, path := newPath, headers := hs5 }, [seenLog])

/-- addon.py lines 100-103, `EgressProxyAddon.response`.  `status` is
`flow.response.status_code` (`none` models a missing response object,
whose attribute access raises). -/
def responseHandler (req : Request) (status : Option Nat) : Except String (List Str) :=
  match status with
  | none => .error "AttributeError"
  | some code =>
    let originalUrl := hGetD req.headers (str "X-Iterate-Original-URL") (requestUrl req)
    .ok [str "[egress] Response " ++ natDigits code ++ str " for " ++ originalUrl]

/-- addon.py lines 105-107, `EgressProxyAddon.websocket_start`. -/
def websocketStartHandler (req : Request) : Except String (List Str) :=
  .ok [str "[egress] WebSocket connection to " ++ req.host]

/-- One WebSocket message: origin flag and payload bytes. -/
structure WSMessage where
  fromClient : Bool
  content : List Nat
deriving DecidableEq

/-- addon.py lines 109-114, `EgressProxyAddon.websocket_message`:
asserts the websocket object exists, reads `messages[-1]`, logs the
direction and the payload length only. -/
def websocketMessageHandler : Option (List WSMessage) → Except String (List Str)
  | none => .error "AssertionError"
  | some msgs =>
    match msgs.getLast? with
    | none => .error "IndexError: list index out of range"
    | some m =>
      let dir := if m.fromClient then str "client->server" else str "server->client"
      .ok [str "[egress] WebSocket " ++ dir ++ str ": " ++
           natDigits m.content.length ++ str " bytes"]

/-- addon.py lines 116-118, `EgressProxyAddon.error`. -/
def errorHandler (req : Request) (err : Str) : Except String (List Str) :=
  .ok [str "[egress] Error for " ++ requestUrl req ++ str ": " ++ err]

/-- Well-formed configuration (spec section 7: malformed relay
configuration "must be validated eagerly at startup"): either no relay
URL, or the worker endpoint parses, has a hostname, and has a valid
port. -/
def configOk (cfg : Config) : Bool :=
  cfg.baseUrl.isEmpty ||
    (match urlparseModel (workerEndpoint cfg) with
     | .error _ => false
     | .ok p =>
       (hostnameProp p.netloc).isSome &&
       (match portProp p.netloc with | .ok _ => true | .error _ => false))

/-- The traffic classifier as the SPEC section 4.2 words it: the
`Upgrade` value compared to `websocket` case-insensitively AFTER
trimming surrounding whitespace.  Kept solely to compare against the
code's classifier (addon.py line 54), which does not trim. -/
def pyStripWs (s : Str) : Str :=
  ((s.dropWhile (fun c => c == ' ' || c == '\t' || c == '\n' || c == '\r' ||
                          c == '\x0b' || c == '\x0c')).reverse.dropWhile
    (fun c => c == ' ' || c == '\t' || c == '\n' || c == '\r' ||
              c == '\x0b' || c == '\x0c')).reverse

/-- Spec-worded classifier predicate (see `pyStripWs`). -/
def specUpgradeClassified (hs : Headers) : Bool :=
  pyLower (pyStripWs (hGetD hs (str "Upgrade") [])) == str "websocket"

/-- Characters of a well-formed (lowercase) hostname: `a-z`, `0-9`,
`.`, `-`.  Statement vocabulary for the round-trip property. -/
def hostChar (c : Char) : Bool :=
  (97 ≤ c.toNat && c.toNat ≤ 122) || (48 ≤ c.toNat && c.toNat ≤ 57) || c == '.' || c == '-'

/-- Characters of a round-trippable request path: printable (above
space), and neither `?` nor `#` (those would start the query/fragment
component when the URL is parsed back).  Statement vocabulary for the
round-trip property. -/
def pathChar (c : Char) : Bool :=
  32 < c.toNat && !(c == '?') && !(c == '#')

/-- Base-URL characters that keep the appended worker suffix inside the
URL's path component when the worker endpoint is parsed back: anything
except `?`, `#` (query/fragment starters), `[`, `]` (bracket-balance
`ValueError`) and tab/CR/LF (removed by `urlsplit`).  Statement
vocabulary for the worker-endpoint invariant. -/
def goodBaseChar (c : Char) : Bool :=
  !(c == '?' || c == '#' || c == '[' || c == ']' || c == '\t' || c == '\r' || c == '\n')

/-- The header mapping a rewritten request ends up with (addon.py lines
80-98, proven equal to the handler's output in `requestHandler_rewrite`):
the three metadata headers, the API key when configured, then the
recomputed `Host` header. -/
def rewrittenHeaders (cfg : Config) (req : Request) (hostHeader : Str) : Headers :=
  hSet
    (if cfg.apiKey.isEmpty then
      hSet (hSet (hSet req.headers (str "X-Iterate-Original-URL")
            (buildOriginalUrl req.scheme req.host req.port req.path))
          (str "X-Iterate-Original-Host") req.host)
        (str "X-Iterate-Original-Method") req.method
     else
      hSet (hSet (hSet (hSet req.headers (str "X-Iterate-Original-URL")
            (buildOriginalUrl req.scheme req.host req.port req.path))
          (str "X-Iterate-Original-Host") req.host)
        (str "X-Iterate-Original-Method") req.method)
        (str "X-Iterate-API-Key") cfg.apiKey)
    (str "Host") hostHeader

/-! ### Lemmas about the header mapping -/

theorem hGet_cons (p : Str × Str) (l : Headers) (k : Str) :
    hGet (p :: l) k = if keyMatches p.1 k then some p.2 else hGet l k := by
  cases h : keyMatches p.1 k <;> simp [hGet, List.find?_cons, h]

theorem hGet_hSet_self (hs : Headers) (k v : Str) : hGet (hSet hs k v) k = some v := by
  induction hs with
  | nil => simp [hSet, hGet_cons, keyMatches]
  | cons p rest ih =>
    simp only [hSet]
    by_cases h : keyMatches p.1 k = true
    · have h' : pyLower p.1 = pyLower k := by simpa [keyMatches] using h
      simp [h, h', hGet_cons, keyMatches]
    · have h' : ¬ pyLower p.1 = pyLower k := by simpa [keyMatches] using h
      simp [h, h', hGet_cons, ih]

theorem hGet_hSet_of_ne (hs : Headers) (k k' v : Str) (h : pyLower k ≠ pyLower k') :
    hGet (hSet hs k v) k' = hGet hs k' := by
  have hkk' : keyMatches k k' = false := by simp [keyMatches, h]
  induction hs with
  | nil => simp [hSet, hGet_cons, hkk', hGet]
  | cons p rest ih =>
    simp only [hSet]
    by_cases hp : keyMatches p.1 k = true
    · have hpk : pyLower p.1 = pyLower k := by simpa [keyMatches] using hp
      have hp' : keyMatches p.1 k' = false := by simp [keyMatches, hpk, h]
      simp [hp, hGet_cons, hkk', hp']
    · simp [hp, hGet_cons, ih]

/-! ### takeWhile / dropWhile toolkit -/

theorem takeWhile_all {p : Char → Bool} {l : Str} (h : ∀ c ∈ l, p c = true) :
    l.takeWhile p = l := by
  induction l with
  | nil => rfl
  | cons a t ih =>
    rw [List.takeWhile_cons, if_pos (h a (by simp)), ih (fun c hc => h c (by simp [hc]))]

theorem dropWhile_all {p : Char → Bool} {l : Str} (h : ∀ c ∈ l, p c = true) :
    l.dropWhile p = [] := by
  induction l with
  | nil => rfl
  | cons a t ih =>
    rw [List.dropWhile_cons, if_pos (h a (by simp))]
    exact ih (fun c hc => h c (by simp [hc]))

theorem takeWhile_append_all {p : Char → Bool} {xs ys : Str} (h : ∀ c ∈ xs, p c = true) :
    (xs ++ ys).takeWhile p = xs ++ ys.takeWhile p := by
  rw [List.takeWhile_append, takeWhile_all h, if_pos rfl]

theorem dropWhile_append_all {p : Char → Bool} {xs ys : Str} (h : ∀ c ∈ xs, p c = true) :
    (xs ++ ys).dropWhile p = ys.dropWhile p := by
  rw [List.dropWhile_append, dropWhile_all h]
  rfl

theorem all_of_takeWhile_length {p : Char → Bool} {xs : Str}
    (h : (xs.takeWhile p).length = xs.length) : ∀ c ∈ xs, p c = true := by
  induction xs with
  | nil => simp
  | cons a t ih =>
    by_cases hp : p a = true
    · rw [List.takeWhile_cons, if_pos hp] at h
      simp only [List.length_cons, Nat.add_right_cancel_iff] at h
      intro c hc
      rcases List.mem_cons.mp hc with rfl | hct
      · exact hp
      · exact ih h c hct
    · rw [List.takeWhile_cons, if_neg hp] at h
      simp at h

theorem takeWhile_append_stop {p : Char → Bool} {xs ys : Str}
    (h : ¬ ∀ c ∈ xs, p c = true) : (xs ++ ys).takeWhile p = xs.takeWhile p := by
  rw [List.takeWhile_append, if_neg (fun hl => h (all_of_takeWhile_length hl))]

theorem dropWhile_append_stop {p : Char → Bool} {xs ys : Str}
    (h : xs.dropWhile p ≠ []) : (xs ++ ys).dropWhile p = xs.dropWhile p ++ ys := by
  rw [List.dropWhile_append, if_neg (by simpa [List.isEmpty_iff] using h)]

theorem dropWhile_eq_append {p : Char → Bool} (l : Str) :
    ∃ t, l = t ++ l.dropWhile p := by
  induction l with
  | nil => exact ⟨[], rfl⟩
  | cons a t ih =>
    by_cases hp : p a = true
    · rcases ih with ⟨u, hu⟩
      exact ⟨a :: u, by rw [List.dropWhile_cons, if_pos hp]; simpa using hu⟩
    · exact ⟨[], by rw [List.dropWhile_cons, if_neg hp]; rfl⟩

theorem mem_of_mem_dropWhile {p : Char → Bool} {l : Str} {c : Char}
    (h : c ∈ l.dropWhile p) : c ∈ l := by
  rcases dropWhile_eq_append (p := p) l with ⟨t, ht⟩
  rw [ht]
  exact List.mem_append_right t h

theorem contains_iff_mem {l : Str} {c : Char} : l.contains c = true ↔ c ∈ l := by
  simp [List.contains, List.elem_iff]

theorem contains_eq_false {l : Str} {c : Char} (h : c ∉ l) : l.contains c = false := by
  cases hc : l.contains c
  · rfl
  · exact absurd (contains_iff_mem.mp hc) h

theorem mem_first_split {c : Char} {l : Str} (h : c ∈ l) :
    ∃ l1 l2, l = l1 ++ c :: l2 ∧ c ∉ l1 := by
  induction l with
  | nil => cases h
  | cons a t ih =>
    by_cases ha : a = c
    · exact ⟨[], t, by simp [ha], by simp⟩
    · have hct : c ∈ t := by
        rcases List.mem_cons.mp h with rfl | hct
        · exact absurd rfl ha
        · exact hct
      rcases ih hct with ⟨l1, l2, hl, hc1⟩
      exact ⟨a :: l1, l2, by simp [hl], by
        simp only [List.mem_cons, not_or]
        exact ⟨fun hc => ha hc.symm, hc1⟩⟩

theorem getLast?_append_right {s t : Str} (h : t ≠ []) :
    (s ++ t).getLast? = t.getLast? := by
  rw [List.getLast?_append]
  have hs : t.getLast?.isSome = true := List.getLast?_isSome.mpr h
  cases hgl : t.getLast? with
  | none => rw [hgl] at hs; cases hs
  | some x => rfl

/-! ### Decimal rendering / parsing lemmas -/

theorem natDigitsGo_zero_fuel (n : Nat) (acc : Str) : natDigitsGo 0 n acc = acc := rfl

theorem natDigitsGo_zero (fuel : Nat) (acc : Str) : natDigitsGo fuel 0 acc = acc := by
  cases fuel <;> simp [natDigitsGo]

theorem natDigitsGo_irrel {n : Nat} : ∀ {f1 f2 : Nat}, n ≤ f1 → n ≤ f2 →
    ∀ (acc : Str), natDigitsGo f1 n acc = natDigitsGo f2 n acc := by
  induction n using Nat.strong_induction_on with
  | _ n ih =>
    intro f1 f2 h1 h2 acc
    cases hn : n with
    | zero => rw [natDigitsGo_zero, natDigitsGo_zero]
    | succ m =>
      subst hn
      match f1, f2, h1, h2 with
      | g1 + 1, g2 + 1, h1, h2 =>
        have hlt : (m + 1) / 10 < m + 1 := Nat.div_lt_self (Nat.succ_pos m) (by decide)
        simp only [natDigitsGo, Nat.succ_ne_zero, if_false]
        exact ih _ hlt (by omega) (by omega) _

theorem natDigitsGo_succ_succ (m : Nat) (acc : Str) :
    natDigitsGo (m + 1) (m + 1) acc =
      natDigitsGo m ((m + 1) / 10) (Nat.digitChar ((m + 1) % 10) :: acc) := by
  simp [natDigitsGo]

theorem natDigitsGo_eq_append (n : Nat) (acc : Str) :
    natDigitsGo n n acc = natDigitsGo n n [] ++ acc := by
  induction n using Nat.strong_induction_on generalizing acc with
  | _ n ih =>
    cases n with
    | zero => rfl
    | succ m =>
      have hlt : (m + 1) / 10 < m + 1 := Nat.div_lt_self (Nat.succ_pos m) (by decide)
      have hle : (m + 1) / 10 ≤ m := by omega
      rw [natDigitsGo_succ_succ, natDigitsGo_succ_succ,
        natDigitsGo_irrel hle (Nat.le_refl _), ih _ hlt,
        natDigitsGo_irrel hle (Nat.le_refl _) [Nat.digitChar ((m + 1) % 10)],
        ih _ hlt [Nat.digitChar ((m + 1) % 10)]]
      simp

theorem parseNatAux_nil (a : Nat) : parseNatAux a [] = a := rfl

theorem parseNatAux_cons (a : Nat) (c : Char) (cs : Str) :
    parseNatAux a (c :: cs) = parseNatAux (10 * a + digitVal c) cs := rfl

theorem parseNatAux_append (a : Nat) (xs ys : Str) :
    parseNatAux a (xs ++ ys) = parseNatAux (parseNatAux a xs) ys := by
  induction xs generalizing a with
  | nil => rfl
  | cons c t ih => exact ih (10 * a + digitVal c)

theorem digitVal_digitChar {r : Nat} (h : r < 10) :
    digitVal (Nat.digitChar r) = r := by
  interval_cases r <;> rfl

theorem parseNatAux_natDigitsGo (n : Nat) :
    ∀ a, parseNatAux a (natDigitsGo n n []) =
      a * 10 ^ (natDigitsGo n n []).length + n := by
  induction n using Nat.strong_induction_on with
  | _ n ih =>
    intro a
    cases n with
    | zero =>
      rw [natDigitsGo_zero, parseNatAux_nil]
      simp
    | succ m =>
      have hlt : (m + 1) / 10 < m + 1 := Nat.div_lt_self (Nat.succ_pos m) (by decide)
      have hle : (m + 1) / 10 ≤ m := by omega
      have hdec : natDigitsGo (m + 1) (m + 1) [] =
          natDigitsGo ((m + 1) / 10) ((m + 1) / 10) [] ++ [Nat.digitChar ((m + 1) % 10)] := by
        rw [natDigitsGo_succ_succ, natDigitsGo_irrel hle (Nat.le_refl _),
          natDigitsGo_eq_append]
      rw [hdec, parseNatAux_append, ih _ hlt a, parseNatAux_cons, parseNatAux_nil,
        digitVal_digitChar (Nat.mod_lt _ (by decide))]
      simp only [List.length_append, List.length_cons, List.length_nil]
      have hmod : 10 * ((m + 1) / 10) + (m + 1) % 10 = m + 1 := Nat.div_add_mod (m + 1) 10
      rw [pow_succ]
      ring_nf
      omega

theorem parseNat_natDigits (n : Nat) : parseNat (natDigits n) = n := by
  cases n with
  | zero => rfl
  | succ m =>
    simp only [natDigits, Nat.succ_ne_zero, if_false, parseNat]
    simpa using parseNatAux_natDigitsGo (m + 1) 0

theorem digitChar_pyIsDigit {r : Nat} (h : r < 10) : pyIsDigit (Nat.digitChar r) = true := by
  interval_cases r <;> rfl

theorem natDigitsGo_all_digit (n : Nat) : ∀ c ∈ natDigitsGo n n [], pyIsDigit c = true := by
  induction n using Nat.strong_induction_on with
  | _ n ih =>
    intro c hc
    cases n with
    | zero => exact absurd hc (List.not_mem_nil c)
    | succ m =>
      have hlt : (m + 1) / 10 < m + 1 := Nat.div_lt_self (Nat.succ_pos m) (by decide)
      have hle : (m + 1) / 10 ≤ m := by omega
      rw [natDigitsGo_succ_succ, natDigitsGo_irrel hle (Nat.le_refl _),
        natDigitsGo_eq_append] at hc
      rcases List.mem_append.mp hc with hc1 | hc2
      · exact ih _ hlt c hc1
      · simp only [List.mem_singleton] at hc2
        subst hc2
        exact digitChar_pyIsDigit (Nat.mod_lt _ (by decide))

theorem natDigits_all_digit (n : Nat) : ∀ c ∈ natDigits n, pyIsDigit c = true := by
  intro c hc
  cases n with
  | zero =>
    simp [natDigits] at hc
    subst hc; rfl
  | succ m =>
    simp only [natDigits, Nat.succ_ne_zero, if_false] at hc
    exact natDigitsGo_all_digit (m + 1) c hc

theorem natDigits_ne_nil (n : Nat) : natDigits n ≠ [] := by
  cases n with
  | zero => simp [natDigits]
  | succ m =>
    simp only [natDigits, Nat.succ_ne_zero, if_false]
    have hlt : (m + 1) / 10 < m + 1 := Nat.div_lt_self (Nat.succ_pos m) (by decide)
    have hle : (m + 1) / 10 ≤ m := by omega
    rw [natDigitsGo_succ_succ, natDigitsGo_irrel hle (Nat.le_refl _), natDigitsGo_eq_append]
    simp

theorem ne_of_toNat_ne {c d : Char} (h : c.toNat ≠ d.toNat) : c ≠ d :=
  fun he => h (by rw [he])

theorem pyIsDigit_bounds {c : Char} (h : pyIsDigit c = true) :
    48 ≤ c.toNat ∧ c.toNat ≤ 57 := by
  simpa [pyIsDigit] using h

theorem hostChar_bounds {c : Char} (h : hostChar c = true) :
    (97 ≤ c.toNat ∧ c.toNat ≤ 122) ∨ (48 ≤ c.toNat ∧ c.toNat ≤ 57) ∨
    c.toNat = 46 ∨ c.toNat = 45 := by
  simp only [hostChar, Bool.or_eq_true, decide_eq_true_eq, Bool.and_eq_true,
    beq_iff_eq] at h
  rcases h with ((h | h) | h) | h
  · exact Or.inl h
  · exact Or.inr (Or.inl h)
  · subst h; exact Or.inr (Or.inr (Or.inl (by decide)))
  · subst h; exact Or.inr (Or.inr (Or.inr (by decide)))

theorem pathChar_bounds {c : Char} (h : pathChar c = true) :
    32 < c.toNat ∧ c ≠ '?' ∧ c ≠ '#' := by
  simp only [pathChar, Bool.and_eq_true, decide_eq_true_eq, Bool.not_eq_true',
    beq_eq_false_iff_ne] at h
  exact ⟨h.1.1, h.1.2, h.2⟩

/-! ### The two passthrough branches of the request handler -/

theorem requestHandler_ws_passthrough (cfg : Config) (req : Request)
    (hws : pyLower (hGetD req.headers (str "Upgrade") []) = str "websocket") :
    requestHandler cfg req =
      .ok (req, [str "[egress] WebSocket passthrough: " ++ req.host]) := by
  unfold requestHandler
  rw [if_pos (by rw [beq_iff_eq]; exact hws)]

theorem requestHandler_no_relay (cfg : Config) (req : Request)
    (hbase : cfg.baseUrl = [])
    (hstd : pyLower (hGetD req.headers (str "Upgrade") []) ≠ str "websocket") :
    requestHandler cfg req =
      .ok (req, [str "[egress] " ++ req.method ++ str " " ++
        buildOriginalUrl req.scheme req.host req.port req.path]) := by
  have hclass : (pyLower (hGetD req.headers (str "Upgrade") []) == str "websocket") = false :=
    beq_eq_false_iff_ne.mpr hstd
  unfold requestHandler
  rw [hclass]
  simp only [Bool.false_eq_true, if_false, workerEndpoint, hbase]
  rfl

/-! ### C4: the URL normalizer -/

/-- C4: for either scheme the URL normalizer produces `scheme://host + path`
when the port is the scheme's default (80 for http, 443 for https) and
`scheme://host:port + path` otherwise; in particular
`https://internal.svc:8443/x` and `https://api.example.com/v1/chat` arise
from the two spec scenarios. -/
theorem original_url_port_omission :
    (∀ (host path : Str) (port : Nat), 0 < port →
      (buildOriginalUrl (str "http") host port path =
        if port = 80 then str "http://" ++ host ++ path
        else str "http://" ++ host ++ [':'] ++ natDigits port ++ path) ∧
      (buildOriginalUrl (str "https") host port path =
        if port = 443 then str "https://" ++ host ++ path
        else str "https://" ++ host ++ [':'] ++ natDigits port ++ path)) ∧
    buildOriginalUrl (str "https") (str "internal.svc") 8443 (str "/x") =
      str "https://internal.svc:8443/x" ∧
    buildOriginalUrl (str "https") (str "api.example.com") 443 (str "/v1/chat") =
      str "https://api.example.com/v1/chat" := by
  have e1 : (str "http" == str "https") = false := by decide
  have e2 : (str "http" == str "http") = true := by decide
  have e3 : (str "https" == str "https") = true := by decide
  have e4 : (str "https" == str "http") = false := by decide
  refine ⟨fun host path port _ => ⟨?_, ?_⟩, by decide, by decide⟩
  · unfold buildOriginalUrl
    simp only [e1, e2, Bool.false_and, Bool.true_and, Bool.false_or]
    by_cases h80 : port = 80
    · subst h80
      rw [if_pos (show ((80 : Nat) == 80) = true from rfl), if_pos (show (80 : Nat) = 80 from rfl)]
      rfl
    · rw [if_neg (by simp [h80]), if_neg h80]
      rfl
  · unfold buildOriginalUrl
    simp only [e3, e4, Bool.true_and, Bool.false_and, Bool.or_false]
    by_cases h443 : port = 443
    · subst h443
      rw [if_pos (show ((443 : Nat) == 443) = true from rfl), if_pos (show (443 : Nat) = 443 from rfl)]
      rfl
    · rw [if_neg (by simp [h443]), if_neg h443]
      rfl

/-- Witness for C4 at `http://h.example:8080/p`. -/
theorem original_url_port_omission_witness :
    buildOriginalUrl (str "http") (str "h.example") 8080 (str "/p") =
      str "http://h.example:8080/p" := by
  have h := (original_url_port_omission.1 (str "h.example") (str "/p") 8080 (by decide)).1
  rw [if_neg (by decide)] at h
  rw [h]
  decide

/-! ### C3: no relay configured, fail-open passthrough -/

/-- C3: with no relay base URL configured, a standard-classified request is
returned completely unmutated, and the request-seen log line (method plus
canonical original URL) is still emitted before the handler returns. -/
theorem no_relay_passthrough (cfg : Config) (req : Request)
    (hbase : cfg.baseUrl = [])
    (hstd : pyLower (hGetD req.headers (str "Upgrade") []) ≠ str "websocket") :
    requestHandler cfg req =
      .ok (req, [str "[egress] " ++ req.method ++ str " " ++
        buildOriginalUrl req.scheme req.host req.port req.path]) :=
  requestHandler_no_relay cfg req hbase hstd

/-- Witness for C3: a concrete standard request with no relay URL. -/
theorem no_relay_passthrough_witness :
    requestHandler ⟨[], str "secret"⟩
      ⟨str "GET", str "http", str "example.com", 80, str "/", []⟩ =
      .ok (⟨str "GET", str "http", str "example.com", 80, str "/", []⟩,
           [str "[egress] GET http://example.com/"]) :=
  no_relay_passthrough ⟨[], str "secret"⟩
    ⟨str "GET", str "http", str "example.com", 80, str "/", []⟩ rfl (by decide)

/-! ### C2: websocket classification (corrected: the code does not trim) -/

/-- C2 counterexample: the spec-worded classifier (trim, then
case-insensitive compare) classifies an `Upgrade: " websocket"` header
(leading space) as upgrade traffic, but the code rewrites that request:
its host afterwards is the relay's, not byte-identical to the original. -/
theorem classifier_does_not_trim_counterexample :
    specUpgradeClassified [(str "Upgrade", str " websocket")] = true ∧
    (requestHandler ⟨str "https://relay.example.com", []⟩
        ⟨str "GET", str "http", str "openai.com", 80, str "/v1",
          [(str "Upgrade", str " websocket")]⟩).map (fun x => x.1.host)
      = .ok (str "relay.example.com") ∧
    str "relay.example.com" ≠ str "openai.com" := by decide

/-- C2 amended: for every request whose `Upgrade` header value equals
`websocket` after lowercasing only (no trimming, exactly as addon.py line
54 compares), the handler returns the request byte-identical, adding no
headers, and only logs the passthrough. -/
theorem websocket_exact_match_passthrough (cfg : Config) (req : Request)
    (hws : pyLower (hGetD req.headers (str "Upgrade") []) = str "websocket") :
    requestHandler cfg req =
      .ok (req, [str "[egress] WebSocket passthrough: " ++ req.host]) :=
  requestHandler_ws_passthrough cfg req hws

/-- Witness for the amended C2 at a concrete mixed-case header. -/
theorem websocket_exact_match_passthrough_witness :
    requestHandler ⟨str "https://relay.example.com", str "secret"⟩
      ⟨str "GET", str "http", str "ws.example.com", 80, str "/socket",
        [(str "Upgrade", str "WebSocket")]⟩ =
      .ok (⟨str "GET", str "http", str "ws.example.com", 80, str "/socket",
            [(str "Upgrade", str "WebSocket")]⟩,
           [str "[egress] WebSocket passthrough: ws.example.com"]) :=
  websocket_exact_match_passthrough _ _ (by decide)

/-! ### C9: the rewrite is not idempotent -/

/-- C9: applying the handler twice to a standard request corrupts the
original-metadata headers: after the second application
`X-Iterate-Original-URL`/`-Host` hold the relay's own address instead of
the original destination recorded by the first application. -/
theorem rewrite_not_idempotent :
    ((requestHandler ⟨str "https://relay.example.com", str "secret"⟩
        ⟨str "POST", str "http", str "openai.com", 80, str "/v1/completions", []⟩).bind
      (fun x => requestHandler ⟨str "https://relay.example.com", str "secret"⟩ x.1)).map
        (fun x => (hGet x.1.headers (str "X-Iterate-Original-URL"),
                   hGet x.1.headers (str "X-Iterate-Original-Host")))
      = .ok (some (str "https://relay.example.com/api/egress-proxy"),
             some (str "relay.example.com")) ∧
    (requestHandler ⟨str "https://relay.example.com", str "secret"⟩
        ⟨str "POST", str "http", str "openai.com", 80, str "/v1/completions", []⟩).map
        (fun x => hGet x.1.headers (str "X-Iterate-Original-URL"))
      = .ok (some (str "http://openai.com/v1/completions")) ∧
    str "https://relay.example.com/api/egress-proxy" ≠
      str "http://openai.com/v1/completions" := by decide

/-! ### Counterexamples for C5 and C6 -/

/-- C5 counterexample: with relay URL `http://relay.example.com:443` the
relay port 443 is NOT the scheme default (http defaults to 80), yet the
code sets `Host` to the hostname alone, because line 95 checks
`port not in (80, 443)` with no regard for the scheme. -/
theorem host_header_ignores_scheme_counterexample :
    (urlparseModel (workerEndpoint ⟨str "http://relay.example.com:443", []⟩)).map
        (fun p => (p.scheme, portProp p.netloc))
      = .ok (str "http", .ok (some 443)) ∧
    (requestHandler ⟨str "http://relay.example.com:443", []⟩
        ⟨str "GET", str "http", str "openai.com", 80, str "/v1", []⟩).map
        (fun x => hGet x.1.headers (str "Host"))
      = .ok (some (str "relay.example.com")) ∧
    (443 : Nat) ≠ 80 ∧
    some (str "relay.example.com") ≠ some (str "relay.example.com:443") := by decide

/-- C6 counterexample: with no credential configured, a request that
already carries an `X-Iterate-API-Key` header is rewritten WITH that
header still present — the rewritten request is not "left without" it. -/
theorem api_key_preexisting_counterexample :
    (requestHandler ⟨str "https://relay.example.com", []⟩
        ⟨str "GET", str "http", str "openai.com", 80, str "/v1",
          [(str "X-Iterate-API-Key", str "preexisting")]⟩).map
        (fun x => hGet x.1.headers (str "X-Iterate-API-Key"))
      = .ok (some (str "preexisting")) ∧
    some (str "preexisting") ≠ (none : Option Str) := by decide

/-! ### The rewrite path of the request handler, in closed form -/

/-- On the rewrite path (standard request, relay configured, endpoint
parses with a hostname and a valid port) the handler succeeds and its
output is the relay-targeted request with `rewrittenHeaders`. -/
theorem requestHandler_rewrite (cfg : Config) (req : Request) (p : ParseResult)
    (hn : Str) (po : Option Nat)
    (hstd : pyLower (hGetD req.headers (str "Upgrade") []) ≠ str "websocket")
    (hbase : cfg.baseUrl ≠ [])
    (hp : urlparseModel (workerEndpoint cfg) = .ok p)
    (hh : hostnameProp p.netloc = some hn)
    (hpo : portProp p.netloc = .ok po) :
    requestHandler cfg req = .ok
      ({ method := req.method, scheme := p.scheme, host := hn,
         port := relayPortOf p.scheme po,
         path := if p.path.isEmpty then str "/api/egress-proxy" else p.path,
         headers := rewrittenHeaders cfg req (hostHeaderOf hn po) },
       [str "[egress] " ++ req.method ++ str " " ++
         buildOriginalUrl req.scheme req.host req.port req.path]) := by
  have hclass : (pyLower (hGetD req.headers (str "Upgrade") []) == str "websocket") = false :=
    beq_eq_false_iff_ne.mpr hstd
  have hwe : (workerEndpoint cfg).isEmpty = false := by
    unfold workerEndpoint
    rw [if_neg (by simpa [List.isEmpty_iff] using hbase)]
    simp [List.isEmpty_iff, str]
  unfold requestHandler rewrittenHeaders
  rw [hclass, hwe, hp]
  simp only [Bool.false_eq_true, if_false]
  rw [hh, hpo]

theorem rewrittenHeaders_host (cfg : Config) (req : Request) (hv : Str) :
    hGet (rewrittenHeaders cfg req hv) (str "Host") = some hv := by
  unfold rewrittenHeaders
  exact hGet_hSet_self _ _ _

theorem rewrittenHeaders_origUrl (cfg : Config) (req : Request) (hv : Str) :
    hGet (rewrittenHeaders cfg req hv) (str "X-Iterate-Original-URL") =
      some (buildOriginalUrl req.scheme req.host req.port req.path) := by
  unfold rewrittenHeaders
  rw [hGet_hSet_of_ne _ _ _ _ (by decide)]
  cases hk : cfg.apiKey.isEmpty
  · rw [if_neg (by simp), hGet_hSet_of_ne _ _ _ _ (by decide),
      hGet_hSet_of_ne _ _ _ _ (by decide), hGet_hSet_of_ne _ _ _ _ (by decide), hGet_hSet_self]
  · rw [if_pos rfl, hGet_hSet_of_ne _ _ _ _ (by decide),
      hGet_hSet_of_ne _ _ _ _ (by decide), hGet_hSet_self]

theorem rewrittenHeaders_origHost (cfg : Config) (req : Request) (hv : Str) :
    hGet (rewrittenHeaders cfg req hv) (str "X-Iterate-Original-Host") =
      some req.host := by
  unfold rewrittenHeaders
  rw [hGet_hSet_of_ne _ _ _ _ (by decide)]
  cases hk : cfg.apiKey.isEmpty
  · rw [if_neg (by simp), hGet_hSet_of_ne _ _ _ _ (by decide),
      hGet_hSet_of_ne _ _ _ _ (by decide), hGet_hSet_self]
  · rw [if_pos rfl, hGet_hSet_of_ne _ _ _ _ (by decide), hGet_hSet_self]

theorem rewrittenHeaders_origMethod (cfg : Config) (req : Request) (hv : Str) :
    hGet (rewrittenHeaders cfg req hv) (str "X-Iterate-Original-Method") =
      some req.method := by
  unfold rewrittenHeaders
  rw [hGet_hSet_of_ne _ _ _ _ (by decide)]
  cases hk : cfg.apiKey.isEmpty
  · rw [if_neg (by simp), hGet_hSet_of_ne _ _ _ _ (by decide), hGet_hSet_self]
  · rw [if_pos rfl, hGet_hSet_self]

theorem rewrittenHeaders_apiKey (cfg : Config) (req : Request) (hv : Str) :
    hGet (rewrittenHeaders cfg req hv) (str "X-Iterate-API-Key") =
      if cfg.apiKey.isEmpty then hGet req.headers (str "X-Iterate-API-Key")
      else some cfg.apiKey := by
  unfold rewrittenHeaders
  rw [hGet_hSet_of_ne _ _ _ _ (by decide)]
  cases hk : cfg.apiKey.isEmpty
  · rw [if_neg (by simp), if_neg (by simp), hGet_hSet_self]
  · rw [if_pos rfl, if_pos rfl, hGet_hSet_of_ne _ _ _ _ (by decide),
      hGet_hSet_of_ne _ _ _ _ (by decide), hGet_hSet_of_ne _ _ _ _ (by decide)]

/-! ### C1: rewrite targets the relay and preserves original metadata -/

/-- C1: for every standard-classified request with a relay endpoint
configured (non-empty base URL whose derived worker endpoint parses with
a hostname and a valid, nonzero port), the handler's output request has
the relay endpoint's host, scheme, port (the parsed port, or the scheme
default when unspecified) and path (the parsed path, or the fixed default
when empty), and the three `X-Iterate-Original-*` headers are present —
overwriting any prior header of the same name — and hold exactly the
pre-rewrite canonical URL, host and method. -/
theorem rewrite_targets_relay_and_preserves_metadata
    (cfg : Config) (req : Request) (p : ParseResult) (hn : Str) (po : Option Nat)
    (hstd : pyLower (hGetD req.headers (str "Upgrade") []) ≠ str "websocket")
    (hbase : cfg.baseUrl ≠ [])
    (hp : urlparseModel (workerEndpoint cfg) = .ok p)
    (hh : hostnameProp p.netloc = some hn)
    (hpo : portProp p.netloc = .ok po)
    (hpz : ∀ k, po = some k → 0 < k) :
    ∃ req' logs, requestHandler cfg req = .ok (req', logs) ∧
      req'.host = hn ∧
      req'.scheme = p.scheme ∧
      req'.port = (po.getD (if p.scheme = str "https" then 443 else 80)) ∧
      req'.path = (if p.path = [] then str "/api/egress-proxy" else p.path) ∧
      hGet req'.headers (str "X-Iterate-Original-URL") =
        some (buildOriginalUrl req.scheme req.host req.port req.path) ∧
      hGet req'.headers (str "X-Iterate-Original-Host") = some req.host ∧
      hGet req'.headers (str "X-Iterate-Original-Method") = some req.method := by
  refine ⟨_, _, requestHandler_rewrite cfg req p hn po hstd hbase hp hh hpo, rfl, rfl, ?_, ?_,
    rewrittenHeaders_origUrl cfg req _, rewrittenHeaders_origHost cfg req _,
    rewrittenHeaders_origMethod cfg req _⟩
  · show relayPortOf p.scheme po = _
    cases po with
    | none =>
      show (if (p.scheme == str "https") = true then 443 else 80) = _
      by_cases hs : p.scheme = str "https"
      · rw [if_pos (beq_iff_eq.mpr hs), if_pos hs]
        rfl
      · rw [if_neg (fun hc => hs (beq_iff_eq.mp hc)), if_neg hs]
        rfl
    | some k =>
      have hk : (k == 0) = false := beq_eq_false_iff_ne.mpr (Nat.pos_iff_ne_zero.mp (hpz k rfl))
      show (if (k == 0) = true then _ else k) = k
      rw [hk]
      simp
  · show (if p.path.isEmpty = true then str "/api/egress-proxy" else p.path) = _
    by_cases hp0 : p.path = []
    · rw [if_pos (List.isEmpty_iff.mpr hp0), if_pos hp0]
    · rw [if_neg (fun hc => hp0 (List.isEmpty_iff.mp hc)), if_neg hp0]

/-- Witness for C1: relay `https://relay.example.com`, credential set,
request `POST http://openai.com/v1/completions` (spec Scenario 3). -/
theorem rewrite_targets_relay_and_preserves_metadata_witness :
    ∃ req' logs,
      requestHandler ⟨str "https://relay.example.com", str "secret"⟩
        ⟨str "POST", str "http", str "openai.com", 80, str "/v1/completions", []⟩ =
        .ok (req', logs) ∧
      req'.host = str "relay.example.com" ∧
      req'.scheme = str "https" ∧
      req'.port = 443 ∧
      req'.path = str "/api/egress-proxy" ∧
      hGet req'.headers (str "X-Iterate-Original-URL") =
        some (str "http://openai.com/v1/completions") ∧
      hGet req'.headers (str "X-Iterate-Original-Host") = some (str "openai.com") ∧
      hGet req'.headers (str "X-Iterate-Original-Method") = some (str "POST") :=
  rewrite_targets_relay_and_preserves_metadata
    ⟨str "https://relay.example.com", str "secret"⟩
    ⟨str "POST", str "http", str "openai.com", 80, str "/v1/completions", []⟩
    ⟨str "https", str "relay.example.com", str "/api/egress-proxy", [], [], []⟩
    (str "relay.example.com") none
    (by decide) (by decide) (by decide) (by decide) (by decide)
    (fun k hk => by cases hk)

/-! ### C5 amended: the Host header rule -/

/-- C5 amended: on the rewrite path the `Host` header is set to the relay
`hostname:port` exactly when the relay URL carries an explicit port that
is nonzero and not 80 and not 443 — REGARDLESS of scheme — and to the
hostname alone otherwise (port absent, zero, 80 or 443). -/
theorem host_header_port_rule
    (cfg : Config) (req : Request) (p : ParseResult) (hn : Str) (po : Option Nat)
    (hstd : pyLower (hGetD req.headers (str "Upgrade") []) ≠ str "websocket")
    (hbase : cfg.baseUrl ≠ [])
    (hp : urlparseModel (workerEndpoint cfg) = .ok p)
    (hh : hostnameProp p.netloc = some hn)
    (hpo : portProp p.netloc = .ok po) :
    ∃ req' logs, requestHandler cfg req = .ok (req', logs) ∧
      hGet req'.headers (str "Host") = some (hostHeaderOf hn po) ∧
      (∀ k, po = some k → k ≠ 0 → k ≠ 80 → k ≠ 443 →
        hostHeaderOf hn po = hn ++ [':'] ++ natDigits k) ∧
      (∀ k, po = some k → (k = 0 ∨ k = 80 ∨ k = 443) → hostHeaderOf hn po = hn) ∧
      (po = none → hostHeaderOf hn po = hn) :=
  ⟨_, _, requestHandler_rewrite cfg req p hn po hstd hbase hp hh hpo,
    rewrittenHeaders_host cfg req _,
    fun k hk h0 h80 h443 => by
      subst hk
      show (if (!(k == 0) && !(k == 80) && !(k == 443)) = true then _ else _) = _
      rw [if_pos (by simp [h0, h80, h443])],
    fun k hk hor => by
      subst hk
      show (if (!(k == 0) && !(k == 80) && !(k == 443)) = true then _ else _) = _
      rcases hor with rfl | rfl | rfl <;> rw [if_neg (by simp)],
    fun hk => by subst hk; rfl⟩

/-- Witness for the amended C5: relay URL with explicit port 8443. -/
theorem host_header_port_rule_witness :
    ∃ req' logs,
      requestHandler ⟨str "https://relay.example.com:8443", []⟩
        ⟨str "GET", str "http", str "openai.com", 80, str "/v1", []⟩ = .ok (req', logs) ∧
      hGet req'.headers (str "Host") = some (hostHeaderOf (str "relay.example.com") (some 8443)) ∧
      (∀ k, some 8443 = some k → k ≠ 0 → k ≠ 80 → k ≠ 443 →
        hostHeaderOf (str "relay.example.com") (some 8443) =
          str "relay.example.com" ++ [':'] ++ natDigits k) ∧
      (∀ k, some 8443 = some k → (k = 0 ∨ k = 80 ∨ k = 443) →
        hostHeaderOf (str "relay.example.com") (some 8443) = str "relay.example.com") ∧
      (some 8443 = none → hostHeaderOf (str "relay.example.com") (some 8443) =
        str "relay.example.com") :=
  host_header_port_rule
    ⟨str "https://relay.example.com:8443", []⟩
    ⟨str "GET", str "http", str "openai.com", 80, str "/v1", []⟩
    ⟨str "https", str "relay.example.com:8443", str "/api/egress-proxy", [], [], []⟩
    (str "relay.example.com") (some 8443)
    (by decide) (by decide) (by decide) (by decide) (by decide)

/-! ### C6 amended: the API-key header rule -/

/-- C6 amended: on the rewrite path, when a credential is configured the
`X-Iterate-API-Key` header is set to it; when no credential is
configured the handler neither adds nor removes the header — the
rewritten request carries exactly whatever value (or absence) the
incoming request already had. -/
theorem api_key_header_rule
    (cfg : Config) (req : Request) (p : ParseResult) (hn : Str) (po : Option Nat)
    (hstd : pyLower (hGetD req.headers (str "Upgrade") []) ≠ str "websocket")
    (hbase : cfg.baseUrl ≠ [])
    (hp : urlparseModel (workerEndpoint cfg) = .ok p)
    (hh : hostnameProp p.netloc = some hn)
    (hpo : portProp p.netloc = .ok po) :
    ∃ req' logs, requestHandler cfg req = .ok (req', logs) ∧
      hGet req'.headers (str "X-Iterate-API-Key") =
        (if cfg.apiKey = [] then hGet req.headers (str "X-Iterate-API-Key")
         else some cfg.apiKey) := by
  refine ⟨_, _, requestHandler_rewrite cfg req p hn po hstd hbase hp hh hpo, ?_⟩
  rw [rewrittenHeaders_apiKey]
  by_cases hk : cfg.apiKey = []
  · rw [if_pos (List.isEmpty_iff.mpr hk), if_pos hk]
  · rw [if_neg (fun hc => hk (List.isEmpty_iff.mp hc)), if_neg hk]

/-- Witness for the amended C6: credential `"secret"` configured. -/
theorem api_key_header_rule_witness :
    ∃ req' logs,
      requestHandler ⟨str "https://relay.example.com", str "secret"⟩
        ⟨str "GET", str "http", str "openai.com", 80, str "/v1", []⟩ = .ok (req', logs) ∧
      hGet req'.headers (str "X-Iterate-API-Key") =
        (if (str "secret" : Str) = [] then
          hGet ([] : Headers) (str "X-Iterate-API-Key")
         else some (str "secret")) :=
  api_key_header_rule
    ⟨str "https://relay.example.com", str "secret"⟩
    ⟨str "GET", str "http", str "openai.com", 80, str "/v1", []⟩
    ⟨str "https", str "relay.example.com", str "/api/egress-proxy", [], [], []⟩
    (str "relay.example.com") none
    (by decide) (by decide) (by decide) (by decide) (by decide)

/-! ### C7: structural totality of the handlers -/

/-- C7: under well-formed inputs (a valid configuration for the request
handler, a present response object for the response handler, a present
websocket with at least one message for the message handler) every
lifecycle handler returns `.ok` — none raises an error that would abort
the flow — and log emission is pure (the log lines are part of the
returned value, so emitting them cannot throw). -/
theorem handlers_structurally_total
    (cfg : Config) (req : Request) (status : Nat) (msgs : List WSMessage) (err : Str)
    (hcfg : configOk cfg = true) (hm : msgs ≠ []) :
    (∃ out, requestHandler cfg req = .ok out) ∧
    (∃ out, responseHandler req (some status) = .ok out) ∧
    (∃ out, websocketStartHandler req = .ok out) ∧
    (∃ out, websocketMessageHandler (some msgs) = .ok out) ∧
    (∃ out, errorHandler req err = .ok out) := by
  refine ⟨?_, ⟨_, rfl⟩, ⟨_, rfl⟩, ?_, ⟨_, rfl⟩⟩
  · by_cases hws : pyLower (hGetD req.headers (str "Upgrade") []) = str "websocket"
    · exact ⟨_, requestHandler_ws_passthrough cfg req hws⟩
    · by_cases hbase : cfg.baseUrl = []
      · exact ⟨_, requestHandler_no_relay cfg req hbase hws⟩
      · have hbe : cfg.baseUrl.isEmpty = false := by
          simpa [List.isEmpty_iff] using hbase
        unfold configOk at hcfg
        rw [hbe] at hcfg
        simp only [Bool.false_or] at hcfg
        cases hup : urlparseModel (workerEndpoint cfg) with
        | error e => rw [hup] at hcfg; simp at hcfg
        | ok p =>
          rw [hup] at hcfg
          simp only [Bool.and_eq_true] at hcfg
          obtain ⟨hh1, hh2⟩ := hcfg
          obtain ⟨hn, hhn⟩ := Option.isSome_iff_exists.mp hh1
          cases hpp : portProp p.netloc with
          | error e => rw [hpp] at hh2; simp at hh2
          | ok po =>
            exact ⟨_, requestHandler_rewrite cfg req p hn po hws hbase hup hhn hpp⟩
  · have hlast : msgs.getLast?.isSome = true := List.getLast?_isSome.mpr hm
    obtain ⟨m, hm'⟩ := Option.isSome_iff_exists.mp hlast
    refine ⟨[str "[egress] WebSocket " ++
      (if m.fromClient then str "client->server" else str "server->client") ++
      str ": " ++ natDigits m.content.length ++ str " bytes"], ?_⟩
    simp only [websocketMessageHandler]
    rw [hm']

/-- Witness for C7 at a concrete configuration, request, response status,
one-message websocket and error string. -/
theorem handlers_structurally_total_witness :
    (∃ out, requestHandler ⟨str "https://relay.example.com", str "secret"⟩
      ⟨str "GET", str "http", str "openai.com", 80, str "/v1", []⟩ = .ok out) ∧
    (∃ out, responseHandler
      ⟨str "GET", str "http", str "openai.com", 80, str "/v1", []⟩ (some 200) = .ok out) ∧
    (∃ out, websocketStartHandler
      ⟨str "GET", str "http", str "openai.com", 80, str "/v1", []⟩ = .ok out) ∧
    (∃ out, websocketMessageHandler (some [⟨true, [0, 1, 2]⟩]) = .ok out) ∧
    (∃ out, errorHandler
      ⟨str "GET", str "http", str "openai.com", 80, str "/v1", []⟩ (str "boom") = .ok out) :=
  handlers_structurally_total
    ⟨str "https://relay.example.com", str "secret"⟩
    ⟨str "GET", str "http", str "openai.com", 80, str "/v1", []⟩
    200 [⟨true, [0, 1, 2]⟩] (str "boom")
    (by decide) (by decide)

/-! ### Character-class facts for the round-trip proofs -/

theorem char_bne_of_toNat_ne {c d : Char} {n : Nat} (hd : d.toNat = n) (h : c.toNat ≠ n) :
    (c == d) = false :=
  beq_eq_false_iff_ne.mpr (fun he => h (by rw [he, hd]))

theorem notStop_of_toNat {c : Char} (h1 : c.toNat ≠ 47) (h2 : c.toNat ≠ 63)
    (h3 : c.toNat ≠ 35) : (!(c == '/' || c == '?' || c == '#')) = true := by
  rw [char_bne_of_toNat_ne (show ('/').toNat = 47 by decide) h1,
    char_bne_of_toNat_ne (show ('?').toNat = 63 by decide) h2,
    char_bne_of_toNat_ne (show ('#').toNat = 35 by decide) h3]
  rfl

theorem notColon_of_toNat {c : Char} (h : c.toNat ≠ 58) : (!(c == ':')) = true := by
  rw [char_bne_of_toNat_ne (show (':').toNat = 58 by decide) h]
  rfl

theorem notAt_of_toNat {c : Char} (h : c.toNat ≠ 64) : (!(c == '@')) = true := by
  rw [char_bne_of_toNat_ne (show ('@').toNat = 64 by decide) h]
  rfl

theorem notUnsafe_of_toNat {c : Char} (h : 32 < c.toNat) : (!isUnsafeUrlByte c) = true := by
  unfold isUnsafeUrlByte
  rw [char_bne_of_toNat_ne (show ('\t').toNat = 9 by decide) (by omega),
    char_bne_of_toNat_ne (show ('\r').toNat = 13 by decide) (by omega),
    char_bne_of_toNat_ne (show ('\n').toNat = 10 by decide) (by omega)]
  rfl

theorem hostChar_facts {c : Char} (h : hostChar c = true) :
    c.toNat ≠ 47 ∧ c.toNat ≠ 63 ∧ c.toNat ≠ 35 ∧ c.toNat ≠ 58 ∧ c.toNat ≠ 64 ∧
    c.toNat ≠ 91 ∧ c.toNat ≠ 93 ∧ 32 < c.toNat ∧ ¬(65 ≤ c.toNat ∧ c.toNat ≤ 90) := by
  rcases hostChar_bounds h with h | h | h | h <;> omega

theorem digit_facts {c : Char} (h : pyIsDigit c = true) :
    c.toNat ≠ 47 ∧ c.toNat ≠ 63 ∧ c.toNat ≠ 35 ∧ c.toNat ≠ 58 ∧ c.toNat ≠ 64 ∧
    c.toNat ≠ 91 ∧ c.toNat ≠ 93 ∧ 32 < c.toNat ∧ ¬(65 ≤ c.toNat ∧ c.toNat ≤ 90) := by
  have := pyIsDigit_bounds h
  omega

theorem toLower_fix {c : Char} (h : ¬(65 ≤ c.toNat ∧ c.toNat ≤ 90)) :
    Char.toLower c = c := by
  show (if c.toNat ≥ 65 ∧ c.toNat ≤ 90 then Char.ofNat (c.toNat + 32) else c) = c
  rw [if_neg (by omega)]

theorem map_eq_self_of {f : Char → Char} {l : Str} (h : ∀ c ∈ l, f c = c) :
    l.map f = l := by
  induction l with
  | nil => rfl
  | cons a t ih => simp [h a (by simp), ih (fun c hc => h c (by simp [hc]))]

/-- When the URL has neither tab/CR/LF nor a leading C0-control/space
character, `urlsplit`'s input normalisation is the identity. -/
theorem pyUrlNormalize_eq_self {u : Str}
    (h1 : ∀ c ∈ u, (!isUnsafeUrlByte c) = true)
    (h2 : u = [] ∨ ∃ c t, u = c :: t ∧ isC0OrSpace c = false) :
    pyUrlNormalize u = u := by
  unfold pyUrlNormalize
  rcases h2 with rfl | ⟨c, t, rfl, hc⟩
  · rfl
  · rw [List.dropWhile_cons_of_neg (by simp [hc]), List.filter_eq_self.mpr h1]

theorem netlocChar_facts_port (host : Str) (port : Nat)
    (hhost : ∀ c ∈ host, hostChar c = true) :
    ∀ c ∈ host ++ ':' :: natDigits port,
      c.toNat ≠ 64 ∧ c.toNat ≠ 91 ∧ c.toNat ≠ 93 ∧ 32 < c.toNat := by
  intro c hc
  rcases List.mem_append.mp hc with hm | hm
  · obtain ⟨_, _, _, _, h64, h91, h93, h32, _⟩ := hostChar_facts (hhost c hm)
    exact ⟨h64, h91, h93, h32⟩
  · rcases List.mem_cons.mp hm with rfl | hm
    · exact ⟨by decide, by decide, by decide, by decide⟩
    · obtain ⟨_, _, _, _, h64, h91, h93, h32, _⟩ := digit_facts (natDigits_all_digit port c hm)
      exact ⟨h64, h91, h93, h32⟩

/-! ### Netloc / hostinfo computations on well-formed authorities -/

theorem netloc_split_port (host : Str) (port : Nat) (path : Str)
    (hhost : ∀ c ∈ host, hostChar c = true)
    (hpath0 : path = [] ∨ ∃ t, path = '/' :: t) :
    splitAtFirst (host ++ ':' :: (natDigits port ++ path))
      (fun c => c == '/' || c == '?' || c == '#') =
    (host ++ ':' :: natDigits port, path) := by
  have hH : ∀ c ∈ host, (fun c => !(c == '/' || c == '?' || c == '#')) c = true := by
    intro c hc
    obtain ⟨h47, h63, h35, _⟩ := hostChar_facts (hhost c hc)
    exact notStop_of_toNat h47 h63 h35
  have hD : ∀ c ∈ natDigits port, (fun c => !(c == '/' || c == '?' || c == '#')) c = true := by
    intro c hc
    obtain ⟨h47, h63, h35, _⟩ := digit_facts (natDigits_all_digit port c hc)
    exact notStop_of_toNat h47 h63 h35
  have ht : (host ++ ':' :: (natDigits port ++ path)).takeWhile
      (fun c => !(c == '/' || c == '?' || c == '#')) = host ++ ':' :: natDigits port := by
    rw [takeWhile_append_all hH, List.takeWhile_cons_of_pos (by decide),
      takeWhile_append_all hD]
    rcases hpath0 with rfl | ⟨t, rfl⟩
    · simp
    · rw [List.takeWhile_cons_of_neg (by decide)]
      simp
  have hd : (host ++ ':' :: (natDigits port ++ path)).dropWhile
      (fun c => !(c == '/' || c == '?' || c == '#')) = path := by
    rw [dropWhile_append_all hH, List.dropWhile_cons_of_pos (by decide),
      dropWhile_append_all hD]
    rcases hpath0 with rfl | ⟨t, rfl⟩
    · rfl
    · rw [List.dropWhile_cons_of_neg (by decide)]
  simp only [splitAtFirst]
  rw [ht, hd]

theorem netloc_split_noport (host : Str) (path : Str)
    (hhost : ∀ c ∈ host, hostChar c = true)
    (hpath0 : path = [] ∨ ∃ t, path = '/' :: t) :
    splitAtFirst (host ++ path) (fun c => c == '/' || c == '?' || c == '#') =
      (host, path) := by
  have hH : ∀ c ∈ host, (fun c => !(c == '/' || c == '?' || c == '#')) c = true := by
    intro c hc
    obtain ⟨h47, h63, h35, _⟩ := hostChar_facts (hhost c hc)
    exact notStop_of_toNat h47 h63 h35
  have ht : (host ++ path).takeWhile (fun c => !(c == '/' || c == '?' || c == '#')) = host := by
    rw [takeWhile_append_all hH]
    rcases hpath0 with rfl | ⟨t, rfl⟩
    · simp
    · rw [List.takeWhile_cons_of_neg (by decide)]
      simp
  have hd : (host ++ path).dropWhile (fun c => !(c == '/' || c == '?' || c == '#')) = path := by
    rw [dropWhile_append_all hH]
    rcases hpath0 with rfl | ⟨t, rfl⟩
    · rfl
    · rw [List.dropWhile_cons_of_neg (by decide)]
  simp only [splitAtFirst]
  rw [ht, hd]

theorem hostinfo_host_port (host : Str) (port : Nat)
    (hhost : ∀ c ∈ host, hostChar c = true) :
    hostinfo (host ++ ':' :: natDigits port) = (host, natDigits port) := by
  have hAt : ∀ c ∈ (host ++ ':' :: natDigits port).reverse, (fun c => !(c == '@')) c = true := by
    intro c hc
    rw [List.mem_reverse] at hc
    exact notAt_of_toNat (netlocChar_facts_port host port hhost c hc).1
  have hNoBrL : ('[' : Char) ∉ host ++ ':' :: natDigits port := fun hm =>
    (netlocChar_facts_port host port hhost '[' hm).2.1 (by decide)
  have hHc : ∀ c ∈ host, (fun c => !(c == ':')) c = true := fun c hc =>
    notColon_of_toNat (hostChar_facts (hhost c hc)).2.2.2.1
  simp only [hostinfo]
  rw [takeWhile_all hAt, List.reverse_reverse, contains_eq_false hNoBrL]
  simp only [Bool.false_eq_true, if_false, splitAtFirst]
  rw [takeWhile_append_all hHc, dropWhile_append_all hHc,
    List.takeWhile_cons_of_neg (by decide), List.dropWhile_cons_of_neg (by decide)]
  simp

theorem hostinfo_host_only (host : Str)
    (hhost : ∀ c ∈ host, hostChar c = true) :
    hostinfo host = (host, []) := by
  have hAt : ∀ c ∈ host.reverse, (fun c => !(c == '@')) c = true := by
    intro c hc
    rw [List.mem_reverse] at hc
    exact notAt_of_toNat (hostChar_facts (hhost c hc)).2.2.2.2.1
  have hNoBrL : ('[' : Char) ∉ host := fun hm =>
    (hostChar_facts (hhost '[' hm)).2.2.2.2.2.1 (by decide)
  have hHc : ∀ c ∈ host, (fun c => !(c == ':')) c = true := fun c hc =>
    notColon_of_toNat (hostChar_facts (hhost c hc)).2.2.2.1
  simp only [hostinfo]
  rw [takeWhile_all hAt, List.reverse_reverse, contains_eq_false hNoBrL]
  simp only [Bool.false_eq_true, if_false, splitAtFirst]
  rw [takeWhile_all hHc, dropWhile_all hHc]
  rfl

theorem pyLower_fix_host {host : Str} (hhost : ∀ c ∈ host, hostChar c = true) :
    pyLower host = host :=
  map_eq_self_of (fun c hc => toLower_fix (hostChar_facts (hhost c hc)).2.2.2.2.2.2.2.2)

theorem hostnameProp_host_port (host : Str) (port : Nat)
    (hh0 : host ≠ []) (hhost : ∀ c ∈ host, hostChar c = true) :
    hostnameProp (host ++ ':' :: natDigits port) = some host := by
  unfold hostnameProp
  rw [hostinfo_host_port host port hhost]
  dsimp only
  rw [if_neg (by simp [List.isEmpty_iff, hh0]), pyLower_fix_host hhost]

theorem hostnameProp_host_only (host : Str)
    (hh0 : host ≠ []) (hhost : ∀ c ∈ host, hostChar c = true) :
    hostnameProp host = some host := by
  unfold hostnameProp
  rw [hostinfo_host_only host hhost]
  dsimp only
  rw [if_neg (by simp [List.isEmpty_iff, hh0]), pyLower_fix_host hhost]

theorem portProp_host_port (host : Str) (port : Nat)
    (hhost : ∀ c ∈ host, hostChar c = true) (hple : port ≤ 65535) :
    portProp (host ++ ':' :: natDigits port) = .ok (some port) := by
  unfold portProp
  rw [hostinfo_host_port host port hhost]
  dsimp only
  rw [if_neg (by simp [List.isEmpty_iff, natDigits_ne_nil port]),
    if_pos (List.all_eq_true.mpr (natDigits_all_digit port)),
    if_pos (by rw [parseNat_natDigits]; exact hple), parseNat_natDigits]

theorem portProp_host_only (host : Str)
    (hhost : ∀ c ∈ host, hostChar c = true) :
    portProp host = .ok none := by
  unfold portProp
  rw [hostinfo_host_only host hhost]
  rfl

/-! ### urlsplit on well-formed authority URLs -/

theorem schemeSplit_https (N : Str) :
    schemeSplit (str "https://" ++ N) = (str "https", str "//" ++ N) := rfl

theorem schemeSplit_http (N : Str) :
    schemeSplit (str "http://" ++ N) = (str "http", str "//" ++ N) := rfl

theorem netlocSplit_ss (N : Str) :
    netlocSplit (str "//" ++ N) =
      splitAtFirst N (fun c => c == '/' || c == '?' || c == '#') := rfl

theorem fragmentSplit_none {u : Str} (h : ('#' : Char) ∉ u) :
    fragmentSplit u = (u, []) := by
  unfold fragmentSplit
  rw [contains_eq_false h]
  rfl

theorem querySplit_none {u : Str} (h : ('?' : Char) ∉ u) :
    querySplit u = (u, []) := by
  unfold querySplit
  rw [contains_eq_false h]
  rfl

theorem urlsplitModel_https (N nl rest : Str)
    (hnorm : pyUrlNormalize (str "https://" ++ N) = str "https://" ++ N)
    (hsp : splitAtFirst N (fun c => c == '/' || c == '?' || c == '#') = (nl, rest))
    (hbrL : ('[' : Char) ∉ nl) (hbrR : (']' : Char) ∉ nl)
    (hhp : ('#' : Char) ∉ rest) (hqp : ('?' : Char) ∉ rest) :
    urlsplitModel (str "https://" ++ N) = .ok ⟨str "https", nl, rest, [], []⟩ := by
  simp only [urlsplitModel]
  rw [hnorm, schemeSplit_https]
  dsimp only
  rw [netlocSplit_ss, hsp]
  dsimp only
  rw [contains_eq_false hbrL, contains_eq_false hbrR]
  simp only [Bool.false_and, Bool.and_false, Bool.false_or, Bool.or_false,
    Bool.not_false, Bool.false_eq_true, if_false]
  rw [fragmentSplit_none hhp]
  dsimp only
  rw [querySplit_none hqp]

theorem urlsplitModel_http (N nl rest : Str)
    (hnorm : pyUrlNormalize (str "http://" ++ N) = str "http://" ++ N)
    (hsp : splitAtFirst N (fun c => c == '/' || c == '?' || c == '#') = (nl, rest))
    (hbrL : ('[' : Char) ∉ nl) (hbrR : (']' : Char) ∉ nl)
    (hhp : ('#' : Char) ∉ rest) (hqp : ('?' : Char) ∉ rest) :
    urlsplitModel (str "http://" ++ N) = .ok ⟨str "http", nl, rest, [], []⟩ := by
  simp only [urlsplitModel]
  rw [hnorm, schemeSplit_http]
  dsimp only
  rw [netlocSplit_ss, hsp]
  dsimp only
  rw [contains_eq_false hbrL, contains_eq_false hbrR]
  simp only [Bool.false_and, Bool.and_false, Bool.false_or, Bool.or_false,
    Bool.not_false, Bool.false_eq_true, if_false]
  rw [fragmentSplit_none hhp]
  dsimp only
  rw [querySplit_none hqp]

/-! ### C8: normalizer / parser round trip -/

/-- C8: for either scheme, any well-formed lowercase hostname, any
positive in-range port and any well-formed path (empty or `/`-initial,
no `?`/`#`), parsing the normalizer's output recovers the same scheme,
host, port (or the scheme default when the port was omitted because it
was the default) and path. -/
theorem normalizer_parse_roundtrip (scheme host path : Str) (port : Nat)
    (hs : scheme = str "http" ∨ scheme = str "https")
    (hp : 0 < port) (hple : port ≤ 65535)
    (hh0 : host ≠ [])
    (hhost : ∀ c ∈ host, hostChar c = true)
    (hpath0 : path = [] ∨ ∃ t, path = '/' :: t)
    (hpathc : ∀ c ∈ path, pathChar c = true) :
    ∃ sp, urlsplitModel (buildOriginalUrl scheme host port path) = .ok sp ∧
      sp.scheme = scheme ∧ sp.path = path ∧
      hostnameProp sp.netloc = some host ∧
      ∃ po, portProp sp.netloc = .ok po ∧
        po.getD (if scheme = str "https" then 443 else 80) = port := by
  have hqPath : ('?' : Char) ∉ path := fun hm => (pathChar_bounds (hpathc _ hm)).2.1 rfl
  have hhPath : ('#' : Char) ∉ path := fun hm => (pathChar_bounds (hpathc _ hm)).2.2 rfl
  have hbrLp : ('[' : Char) ∉ host ++ ':' :: natDigits port := fun hm =>
    (netlocChar_facts_port host port hhost '[' hm).2.1 (by decide)
  have hbrRp : (']' : Char) ∉ host ++ ':' :: natDigits port := fun hm =>
    (netlocChar_facts_port host port hhost ']' hm).2.2.1 (by decide)
  have hbrLh : ('[' : Char) ∉ host := fun hm =>
    (hostChar_facts (hhost '[' hm)).2.2.2.2.2.1 (by decide)
  have hbrRh : (']' : Char) ∉ host := fun hm =>
    (hostChar_facts (hhost ']' hm)).2.2.2.2.2.2.1 (by decide)
  have hNsafeP : ∀ c ∈ host ++ ':' :: (natDigits port ++ path),
      (!isUnsafeUrlByte c) = true := by
    intro c hc
    rcases List.mem_append.mp hc with hm | hm
    · exact notUnsafe_of_toNat (hostChar_facts (hhost c hm)).2.2.2.2.2.2.2.1
    · rcases List.mem_cons.mp hm with rfl | hm
      · decide
      · rcases List.mem_append.mp hm with hm | hm
        · exact notUnsafe_of_toNat (digit_facts (natDigits_all_digit port c hm)).2.2.2.2.2.2.2.1
        · exact notUnsafe_of_toNat (pathChar_bounds (hpathc c hm)).1
  have hNsafeN : ∀ c ∈ host ++ path, (!isUnsafeUrlByte c) = true := by
    intro c hc
    rcases List.mem_append.mp hc with hm | hm
    · exact notUnsafe_of_toNat (hostChar_facts (hhost c hm)).2.2.2.2.2.2.2.1
    · exact notUnsafe_of_toNat (pathChar_bounds (hpathc c hm)).1
  rcases hs with rfl | rfl
  · by_cases hdef : port = 80
    · subst hdef
      have hurl : buildOriginalUrl (str "http") host 80 path =
          str "http://" ++ (host ++ path) := by
        unfold buildOriginalUrl
        rw [if_pos (show ((str "http" == str "https" && (80 : Nat) == 443) ||
          (str "http" == str "http" && (80 : Nat) == 80)) = true from by decide)]
        simp only [List.append_assoc]
        rfl
      have hnorm : pyUrlNormalize (str "http://" ++ (host ++ path)) =
          str "http://" ++ (host ++ path) := by
        apply pyUrlNormalize_eq_self
        · intro c hc
          rcases List.mem_append.mp hc with hm | hm
          · exact (by decide : ∀ c ∈ str "http://", (!isUnsafeUrlByte c) = true) c hm
          · exact hNsafeN c hm
        · exact Or.inr ⟨'h', _, rfl, by decide⟩
      refine ⟨⟨str "http", host, path, [], []⟩, ?_, rfl, rfl,
        hostnameProp_host_only host hh0 hhost, none, portProp_host_only host hhost, ?_⟩
      · rw [hurl]
        exact urlsplitModel_http (host ++ path) host path hnorm
          (netloc_split_noport host path hhost hpath0) hbrLh hbrRh hhPath hqPath
      · rw [if_neg (by decide)]
        rfl
    · have hcond : ((str "http" == str "https" && port == 443) ||
          (str "http" == str "http" && port == 80)) = (port == 80) := by
        rw [show (str "http" == str "https") = false from by decide,
          show (str "http" == str "http") = true from by decide]
        simp
      have hurl : buildOriginalUrl (str "http") host port path =
          str "http://" ++ (host ++ ':' :: (natDigits port ++ path)) := by
        unfold buildOriginalUrl
        rw [hcond, if_neg (by simp [hdef])]
        simp only [List.append_assoc, List.singleton_append]
        rfl
      have hnorm : pyUrlNormalize (str "http://" ++ (host ++ ':' :: (natDigits port ++ path)))
          = str "http://" ++ (host ++ ':' :: (natDigits port ++ path)) := by
        apply pyUrlNormalize_eq_self
        · intro c hc
          rcases List.mem_append.mp hc with hm | hm
          · exact (by decide : ∀ c ∈ str "http://", (!isUnsafeUrlByte c) = true) c hm
          · exact hNsafeP c hm
        · exact Or.inr ⟨'h', _, rfl, by decide⟩
      refine ⟨⟨str "http", host ++ ':' :: natDigits port, path, [], []⟩, ?_, rfl, rfl,
        hostnameProp_host_port host port hh0 hhost, some port,
        portProp_host_port host port hhost hple, rfl⟩
      rw [hurl]
      exact urlsplitModel_http _ _ _ hnorm
        (netloc_split_port host port path hhost hpath0) hbrLp hbrRp hhPath hqPath
  · by_cases hdef : port = 443
    · subst hdef
      have hurl : buildOriginalUrl (str "https") host 443 path =
          str "https://" ++ (host ++ path) := by
        unfold buildOriginalUrl
        rw [if_pos (show ((str "https" == str "https" && (443 : Nat) == 443) ||
          (str "https" == str "http" && (443 : Nat) == 80)) = true from by decide)]
        simp only [List.append_assoc]
        rfl
      have hnorm : pyUrlNormalize (str "https://" ++ (host ++ path)) =
          str "https://" ++ (host ++ path) := by
        apply pyUrlNormalize_eq_self
        · intro c hc
          rcases List.mem_append.mp hc with hm | hm
          · exact (by decide : ∀ c ∈ str "https://", (!isUnsafeUrlByte c) = true) c hm
          · exact hNsafeN c hm
        · exact Or.inr ⟨'h', _, rfl, by decide⟩
      refine ⟨⟨str "https", host, path, [], []⟩, ?_, rfl, rfl,
        hostnameProp_host_only host hh0 hhost, none, portProp_host_only host hhost, ?_⟩
      · rw [hurl]
        exact urlsplitModel_https (host ++ path) host path hnorm
          (netloc_split_noport host path hhost hpath0) hbrLh hbrRh hhPath hqPath
      · rw [if_pos rfl]
        rfl
    · have hcond : ((str "https" == str "https" && port == 443) ||
          (str "https" == str "http" && port == 80)) = (port == 443) := by
        rw [show (str "https" == str "https") = true from by decide,
          show (str "https" == str "http") = false from by decide]
        simp
      have hurl : buildOriginalUrl (str "https") host port path =
          str "https://" ++ (host ++ ':' :: (natDigits port ++ path)) := by
        unfold buildOriginalUrl
        rw [hcond, if_neg (by simp [hdef])]
        simp only [List.append_assoc, List.singleton_append]
        rfl
      have hnorm : pyUrlNormalize (str "https://" ++ (host ++ ':' :: (natDigits port ++ path)))
          = str "https://" ++ (host ++ ':' :: (natDigits port ++ path)) := by
        apply pyUrlNormalize_eq_self
        · intro c hc
          rcases List.mem_append.mp hc with hm | hm
          · exact (by decide : ∀ c ∈ str "https://", (!isUnsafeUrlByte c) = true) c hm
          · exact hNsafeP c hm
        · exact Or.inr ⟨'h', _, rfl, by decide⟩
      refine ⟨⟨str "https", host ++ ':' :: natDigits port, path, [], []⟩, ?_, rfl, rfl,
        hostnameProp_host_port host port hh0 hhost, some port,
        portProp_host_port host port hhost hple, rfl⟩
      rw [hurl]
      exact urlsplitModel_https _ _ _ hnorm
        (netloc_split_port host port path hhost hpath0) hbrLp hbrRp hhPath hqPath

/-- Witness for C8 at `https://api.example.com:8443/v1/chat`. -/
theorem normalizer_parse_roundtrip_witness :
    ∃ sp, urlsplitModel
        (buildOriginalUrl (str "https") (str "api.example.com") 8443 (str "/v1/chat")) =
        .ok sp ∧
      sp.scheme = str "https" ∧ sp.path = str "/v1/chat" ∧
      hostnameProp sp.netloc = some (str "api.example.com") ∧
      ∃ po, portProp sp.netloc = .ok po ∧
        po.getD (if (str "https" : Str) = str "https" then 443 else 80) = 8443 :=
  normalizer_parse_roundtrip (str "https") (str "api.example.com") (str "/v1/chat") 8443
    (Or.inr rfl) (by decide) (by decide) (by decide) (by decide)
    (Or.inr ⟨str "v1/chat", by decide⟩) (by decide)

/-! ### Shape lemmas for the worker-endpoint invariant (C10) -/

theorem good_facts {c : Char} (h : goodBaseChar c = true) :
    (c == '?') = false ∧ (c == '#') = false ∧ (c == '[') = false ∧ (c == ']') = false ∧
    (c == '\t') = false ∧ (c == '\r') = false ∧ (c == '\n') = false := by
  simp only [goodBaseChar, Bool.not_eq_true', Bool.or_eq_false_iff] at h
  tauto

theorem keep_of_good {c : Char} (h : goodBaseChar c = true) :
    (!isUnsafeUrlByte c) = true := by
  obtain ⟨_, _, _, _, h5, h6, h7⟩ := good_facts h
  unfold isUnsafeUrlByte
  rw [h5, h6, h7]
  rfl

theorem notStop_of_beq {c : Char} (h1 : (c == '/') = false) (h2 : (c == '?') = false)
    (h3 : (c == '#') = false) : (!(c == '/' || c == '?' || c == '#')) = true := by
  rw [h1, h2, h3]
  rfl

theorem mem_rstrip {c : Char} {l : Str} (h : c ∈ rstripSlashes l) : c ∈ l := by
  unfold rstripSlashes at h
  rw [List.mem_reverse] at h
  have := mem_of_mem_dropWhile h
  rwa [List.mem_reverse] at this

theorem rstrip_getLast {l : Str} {c : Char} (h : (rstripSlashes l).getLast? = some c) :
    c ≠ '/' := by
  unfold rstripSlashes at h
  rw [List.getLast?_reverse] at h
  have := List.head?_dropWhile_not (fun c => c == '/') l.reverse
  rw [h] at this
  simpa using this

/-- Stage 1 for C10: `urlsplit`'s input normalisation keeps the
`z ++ "/api/egress-proxy"` shape: the prefix may only shrink, stays made
of good characters, and still does not end in `/`. -/
theorem normalize_shape (z : Str)
    (hg : ∀ c ∈ z, goodBaseChar c = true)
    (hl : ∀ c, z.getLast? = some c → c ≠ '/') :
    ∃ z1, pyUrlNormalize (z ++ str "/api/egress-proxy") = z1 ++ str "/api/egress-proxy" ∧
      (∀ c ∈ z1, goodBaseChar c = true) ∧ (∀ c, z1.getLast? = some c → c ≠ '/') := by
  unfold pyUrlNormalize
  rw [List.dropWhile_append]
  by_cases hz : (z.dropWhile isC0OrSpace).isEmpty = true
  · rw [if_pos hz]
    refine ⟨[], ?_, by simp, by simp⟩
    rw [show (str "/api/egress-proxy").dropWhile isC0OrSpace = str "/api/egress-proxy" from rfl,
      show (str "/api/egress-proxy").filter (fun c => !isUnsafeUrlByte c) =
        str "/api/egress-proxy" from rfl]
    rfl
  · rw [if_neg hz]
    have hz' : z.dropWhile isC0OrSpace ≠ [] := by
      simpa [List.isEmpty_iff] using hz
    have hz'good : ∀ c ∈ z.dropWhile isC0OrSpace, goodBaseChar c = true :=
      fun c hc => hg c (mem_of_mem_dropWhile hc)
    refine ⟨z.dropWhile isC0OrSpace, ?_, hz'good, ?_⟩
    · rw [List.filter_append, List.filter_eq_self.mpr (fun c hc => keep_of_good (hz'good c hc)),
        show (str "/api/egress-proxy").filter (fun c => !isUnsafeUrlByte c) =
          str "/api/egress-proxy" from rfl]
    · intro c hgl
      apply hl
      obtain ⟨t, ht⟩ := dropWhile_eq_append (p := isC0OrSpace) z
      rw [ht, getLast?_append_right hz']
      exact hgl

theorem schemeSplit_snd (u : Str) :
    (schemeSplit u).2 = u ∨
    ((splitAtFirst u (fun c => c == ':')).2 ≠ [] ∧
     (schemeSplit u).2 = (splitAtFirst u (fun c => c == ':')).2.tail) := by
  simp only [schemeSplit]
  split
  · rename_i h
    simp only [Bool.and_eq_true] at h
    refine Or.inr ⟨?_, rfl⟩
    have h1 := h.1.1.1
    simpa [List.isEmpty_iff] using h1
  · exact Or.inl rfl

/-- Stage 2 for C10: the scheme split keeps the shape. -/
theorem schemeSplit_shape (z : Str)
    (hg : ∀ c ∈ z, goodBaseChar c = true)
    (hl : ∀ c, z.getLast? = some c → c ≠ '/') :
    ∃ z2, (schemeSplit (z ++ str "/api/egress-proxy")).2 = z2 ++ str "/api/egress-proxy" ∧
      (∀ c ∈ z2, goodBaseChar c = true) ∧ (∀ c, z2.getLast? = some c → c ≠ '/') := by
  rcases schemeSplit_snd (z ++ str "/api/egress-proxy") with h | ⟨hne, h⟩
  · exact ⟨z, h, hg, hl⟩
  · by_cases hc : (':' : Char) ∈ z
    · obtain ⟨za, zb, rfl, hna⟩ := mem_first_split hc
      have hza : ∀ c ∈ za, (fun c => !(c == ':')) c = true := by
        intro c hcc
        have hcne : c ≠ ':' := fun he => hna (he ▸ hcc)
        show (!(c == ':')) = true
        rw [beq_eq_false_iff_ne.mpr hcne]
        rfl
      have hsp : splitAtFirst ((za ++ ':' :: zb) ++ str "/api/egress-proxy")
          (fun c => c == ':') = (za, ':' :: (zb ++ str "/api/egress-proxy")) := by
        rw [show (za ++ ':' :: zb) ++ str "/api/egress-proxy" =
          za ++ ':' :: (zb ++ str "/api/egress-proxy") from by simp]
        simp only [splitAtFirst]
        rw [takeWhile_append_all hza, dropWhile_append_all hza,
          List.takeWhile_cons_of_neg (by decide), List.dropWhile_cons_of_neg (by decide)]
        simp
      rw [hsp] at h
      refine ⟨zb, h, ?_, ?_⟩
      · intro c hcc
        exact hg c (by simp [hcc])
      · intro c hgl
        apply hl
        rw [getLast?_append_right (by simp : (':' :: zb : Str) ≠ []), List.getLast?_cons, hgl]
        rfl
    · exfalso
      apply hne
      have hall : ∀ c ∈ z ++ str "/api/egress-proxy", (fun c => !(c == ':')) c = true := by
        intro c hcc
        rcases List.mem_append.mp hcc with hm | hm
        · have hcne : c ≠ ':' := fun he => hc (he ▸ hm)
          show (!(c == ':')) = true
          rw [beq_eq_false_iff_ne.mpr hcne]
          rfl
        · exact (by decide : ∀ c ∈ str "/api/egress-proxy", (fun c => !(c == ':')) c = true) c hm
      simp only [splitAtFirst]
      exact dropWhile_all hall

theorem netlocSplit_nss1 {c1 : Char} {t : Str} (h : c1 ≠ '/') :
    netlocSplit (c1 :: t) = ([], c1 :: t) := by
  unfold netlocSplit
  split
  · rename_i rest heq
    injection heq with h1 _
    exact absurd h1 h
  · rfl

theorem netlocSplit_nss2 {c2 : Char} (h : c2 ≠ '/') (c1 : Char) (t : Str) :
    netlocSplit (c1 :: c2 :: t) = ([], c1 :: c2 :: t) := by
  unfold netlocSplit
  split
  · rename_i rest heq
    injection heq with _ h2
    injection h2 with h2 _
    exact absurd h2 h
  · rfl

/-- Stage 3 for C10: the netloc split keeps the remainder's shape; the
netloc itself is made of good characters. -/
theorem netlocSplit_shape (z : Str)
    (hg : ∀ c ∈ z, goodBaseChar c = true)
    (hl : ∀ c, z.getLast? = some c → c ≠ '/') :
    ∃ nl w, netlocSplit (z ++ str "/api/egress-proxy") =
        (nl, w ++ str "/api/egress-proxy") ∧
      (∀ c ∈ nl, goodBaseChar c = true) ∧ (∀ c ∈ w, goodBaseChar c = true) := by
  rcases z with _ | ⟨c1, z⟩
  · refine ⟨[], [], ?_, by simp, by simp⟩
    show netlocSplit (str "/api/egress-proxy") = ([], str "/api/egress-proxy")
    exact netlocSplit_nss2 (by decide) '/' (str "pi/egress-proxy")
  · rcases z with _ | ⟨c2, z⟩
    · have hc1 : c1 ≠ '/' := hl c1 rfl
      exact ⟨[], [c1], netlocSplit_nss1 hc1, by simp, by
        intro c hcc
        simp only [List.mem_singleton] at hcc
        subst hcc
        exact hg c (by simp)⟩
    · by_cases h1 : c1 = '/'
      · by_cases h2 : c2 = '/'
        · subst h1
          subst h2
          have hgz : ∀ c ∈ z, goodBaseChar c = true := fun c hc => hg c (by simp [hc])
          show ∃ nl w, netlocSplit (str "//" ++ (z ++ str "/api/egress-proxy")) = _ ∧ _ ∧ _
          rw [netlocSplit_ss]
          by_cases hsl : ('/' : Char) ∈ z
          · obtain ⟨a, b, rfl, hna⟩ := mem_first_split hsl
            have ha : ∀ c ∈ a, (fun c => !(c == '/' || c == '?' || c == '#')) c = true := by
              intro c hcc
              obtain ⟨hq, hh, _⟩ := good_facts (hgz c (by simp [hcc]))
              exact notStop_of_beq
                (beq_eq_false_iff_ne.mpr (fun he => hna (he ▸ hcc))) hq hh
            have hsp : splitAtFirst ((a ++ '/' :: b) ++ str "/api/egress-proxy")
                (fun c => c == '/' || c == '?' || c == '#') =
                (a, '/' :: (b ++ str "/api/egress-proxy")) := by
              rw [show (a ++ '/' :: b) ++ str "/api/egress-proxy" =
                a ++ '/' :: (b ++ str "/api/egress-proxy") from by simp]
              simp only [splitAtFirst]
              rw [takeWhile_append_all ha, dropWhile_append_all ha,
                List.takeWhile_cons_of_neg (by decide), List.dropWhile_cons_of_neg (by decide)]
              simp
            refine ⟨a, '/' :: b, ?_, fun c hc => hgz c (by simp [hc]), ?_⟩
            · rw [hsp, List.cons_append]
            · intro c hcc
              rcases List.mem_cons.mp hcc with rfl | hm
              · decide
              · exact hgz c (by simp [hm])
          · have hz : ∀ c ∈ z, (fun c => !(c == '/' || c == '?' || c == '#')) c = true := by
              intro c hcc
              obtain ⟨hq, hh, _⟩ := good_facts (hgz c hcc)
              exact notStop_of_beq
                (beq_eq_false_iff_ne.mpr (fun he => hsl (he ▸ hcc))) hq hh
            have hsp : splitAtFirst (z ++ str "/api/egress-proxy")
                (fun c => c == '/' || c == '?' || c == '#') =
                (z, str "/api/egress-proxy") := by
              simp only [splitAtFirst]
              rw [takeWhile_append_all hz, dropWhile_append_all hz,
                show (str "/api/egress-proxy").takeWhile
                  (fun c => !(c == '/' || c == '?' || c == '#')) = [] from rfl,
                show (str "/api/egress-proxy").dropWhile
                  (fun c => !(c == '/' || c == '?' || c == '#')) =
                  str "/api/egress-proxy" from rfl]
              simp
            exact ⟨z, [], by rw [hsp]; rfl, hgz, by simp⟩
        · refine ⟨[], c1 :: c2 :: z, netlocSplit_nss2 h2 c1 _, by simp, hg⟩
      · refine ⟨[], c1 :: c2 :: z, netlocSplit_nss1 h1, by simp, hg⟩

/-- `_splitparams` never splits a path ending in `/api/egress-proxy`:
the `;` search is confined to the last `/`-segment, which is
`egress-proxy`. -/
theorem splitparams_sfx (w : Str) :
    splitparams (w ++ str "/api/egress-proxy") = (w ++ str "/api/egress-proxy", []) := by
  simp only [splitparams]
  rw [if_pos (contains_iff_mem.mpr (List.mem_append_right w (by decide)))]
  have h1 : (w ++ str "/api/egress-proxy").reverse.takeWhile (fun c => !(c == '/')) =
      str "yxorp-sserge" := by
    rw [List.reverse_append, takeWhile_append_stop (by decide)]
    rfl
  rw [h1, if_neg (by decide)]

/-! ### C10: the worker-endpoint path invariant (corrected) -/

/-- C10 counterexample: the non-empty base URL
`https://relay.example.com?x` puts the appended suffix into the QUERY of
the worker endpoint, so the parsed path is empty — not a non-empty path
ending in `/api/egress-proxy` — and the rewritten request's path comes
from the empty-path fallback, not from the derived path. -/
theorem worker_endpoint_path_counterexample :
    (str "https://relay.example.com?x" : Str) ≠ [] ∧
    (urlparseModel (workerEndpoint ⟨str "https://relay.example.com?x", []⟩)).map
      (fun p => p.path) = .ok [] ∧
    (requestHandler ⟨str "https://relay.example.com?x", []⟩
        ⟨str "GET", str "http", str "openai.com", 80, str "/v1", []⟩).map
      (fun x => x.1.path) = .ok (str "/api/egress-proxy") ∧
    (str "/api/egress-proxy" : Str) ≠ ([] : Str) := by decide

/-- C10 amended: whenever the relay base URL is non-empty and contains
none of `?`, `#`, `[`, `]`, tab, CR, LF, the derived worker endpoint
parses with a non-empty path ending in `/api/egress-proxy`, every
rewritten request's path equals that derived path, and the empty-path
fallback in the path assignment is never taken. -/
theorem worker_endpoint_path_suffix (cfg : Config)
    (hne : cfg.baseUrl ≠ [])
    (hgood : ∀ c ∈ cfg.baseUrl, goodBaseChar c = true) :
    ∃ p, urlparseModel (workerEndpoint cfg) = .ok p ∧
      p.path ≠ [] ∧
      (∃ w, p.path = w ++ str "/api/egress-proxy") ∧
      (∀ req hn po,
        pyLower (hGetD req.headers (str "Upgrade") []) ≠ str "websocket" →
        hostnameProp p.netloc = some hn →
        portProp p.netloc = .ok po →
        ∃ req' logs, requestHandler cfg req = .ok (req', logs) ∧ req'.path = p.path) := by
  have hWE : workerEndpoint cfg = rstripSlashes cfg.baseUrl ++ str "/api/egress-proxy" := by
    unfold workerEndpoint
    rw [if_neg (by simp [List.isEmpty_iff, hne])]
  have hg0 : ∀ c ∈ rstripSlashes cfg.baseUrl, goodBaseChar c = true :=
    fun c hc => hgood c (mem_rstrip hc)
  have hl0 : ∀ c, (rstripSlashes cfg.baseUrl).getLast? = some c → c ≠ '/' :=
    fun c hc => rstrip_getLast hc
  obtain ⟨z1, hn1, hg1, hl1⟩ := normalize_shape (rstripSlashes cfg.baseUrl) hg0 hl0
  obtain ⟨z2, hs2, hg2, hl2⟩ := schemeSplit_shape z1 hg1 hl1
  obtain ⟨nl, w, hnp, hgnl, hgw⟩ := netlocSplit_shape z2 hg2 hl2
  have hbrL : ('[' : Char) ∉ nl := fun hm => by
    have h := (good_facts (hgnl _ hm)).2.2.1
    simp at h
  have hbrR : (']' : Char) ∉ nl := fun hm => by
    have h := (good_facts (hgnl _ hm)).2.2.2.1
    simp at h
  have hfr : ('#' : Char) ∉ w ++ str "/api/egress-proxy" := by
    intro hm
    rcases List.mem_append.mp hm with hm | hm
    · have h := (good_facts (hgw _ hm)).2.1
      simp at h
    · exact absurd hm (by decide)
  have hq : ('?' : Char) ∉ w ++ str "/api/egress-proxy" := by
    intro hm
    rcases List.mem_append.mp hm with hm | hm
    · have h := (good_facts (hgw _ hm)).1
      simp at h
    · exact absurd hm (by decide)
  have hsplit : urlsplitModel (workerEndpoint cfg) =
      .ok ⟨(schemeSplit (z1 ++ str "/api/egress-proxy")).1, nl,
        w ++ str "/api/egress-proxy", [], []⟩ := by
    rw [hWE]
    simp only [urlsplitModel]
    rw [hn1, hs2, hnp]
    dsimp only
    rw [contains_eq_false hbrL, contains_eq_false hbrR]
    simp only [Bool.false_and, Bool.false_or, Bool.false_eq_true, if_false]
    rw [fragmentSplit_none hfr]
    dsimp only
    rw [querySplit_none hq]
  have hparse : urlparseModel (workerEndpoint cfg) =
      .ok ⟨(schemeSplit (z1 ++ str "/api/egress-proxy")).1, nl,
        w ++ str "/api/egress-proxy", [], [], []⟩ := by
    unfold urlparseModel
    rw [hsplit]
    dsimp only
    by_cases hsc : ((w ++ str "/api/egress-proxy").contains ';') = true
    · rw [if_pos hsc, splitparams_sfx]
    · rw [if_neg hsc]
  have hpne : w ++ str "/api/egress-proxy" ≠ ([] : Str) :=
    fun hcc => absurd (List.append_eq_nil.mp hcc).2 (by decide)
  refine ⟨_, hparse, hpne, ⟨w, rfl⟩, ?_⟩
  intro req hn po hstd hhn hpo
  refine ⟨_, _, requestHandler_rewrite cfg req _ hn po hstd hne hparse hhn hpo, ?_⟩
  show (if (w ++ str "/api/egress-proxy").isEmpty = true then str "/api/egress-proxy"
    else w ++ str "/api/egress-proxy") = w ++ str "/api/egress-proxy"
  rw [if_neg (by simp [List.isEmpty_iff, hpne])]

/-- Witness for the amended C10 at `https://relay.example.com`. -/
theorem worker_endpoint_path_suffix_witness :
    ∃ p, urlparseModel
        (workerEndpoint ⟨str "https://relay.example.com", str "secret"⟩) = .ok p ∧
      p.path ≠ [] ∧
      (∃ w, p.path = w ++ str "/api/egress-proxy") ∧
      (∀ req hn po,
        pyLower (hGetD req.headers (str "Upgrade") []) ≠ str "websocket" →
        hostnameProp p.netloc = some hn →
        portProp p.netloc = .ok po →
        ∃ req' logs, requestHandler ⟨str "https://relay.example.com", str "secret"⟩ req =
          .ok (req', logs) ∧ req'.path = p.path) :=
  worker_endpoint_path_suffix ⟨str "https://relay.example.com", str "secret"⟩
    (by decide) (by decide)

end EgressProxy
